import Mathlib

/-!
# A verification model of the `httpretry` retrying HTTP getter

This file gives a shallow embedding, in Lean, of the retrying/resuming HTTP
download client implemented in `getter.go` and `backoff.go` of the
`httpretry` package, together with theorems about the embedded definitions.

Modelling conventions:

* The external HTTP transport is modelled as a list of *server steps*: each
  physical attempt consumes one step, a function from the request's current
  `Range` header (`none` when absent) to either a Go transport error or an
  HTTP response.  A response carries a status code, a header list and a body.
* A response body is a sequence of read results; each `Read` call on the body
  consumes one, yielding the bytes delivered by that call together with an
  optional error (`eof` for `io.EOF`, `other` for any other Go error).
  Reading an exhausted open body yields `io.EOF`; reading a closed body
  yields a non-EOF error, as the Go HTTP body does after `Close`.
* Go machine integers (`int`, `int64`) are modelled as `Int`; byte counts are
  converted explicitly.  `strconv.ParseInt` is modelled faithfully, including
  the value it reports alongside a range error (the caller discards the
  error).
* The streaming hash (`hash.Hash`, by default SHA-256) is modelled as the
  list of bytes written to it so far; `Sha256` hex-encodes a real SHA-256 of
  that list.  A freshly constructed getter has no hash installed
  (`hasher = none`), modelling the `nil` interface value that `Do`/`SetHash`
  replace with a default; calling `Sha256` in that state has no defined
  result (Go dereferences a nil interface), modelled by `Option`.
-/

namespace Httpretry

/-- `time.Duration`, in (unspecified) ticks. -/
abbrev Duration := Int

/-- `backoff.Stop = time.Duration(-1)`, the sentinel "do not retry" wait. -/
def backoffStop : Duration := -1

/-- The `QuittableBackOff` of `backoff.go`: a pluggable backoff generator
(modelled as the queue `cur` of waits it will hand out, with `init` the
state it returns to on `Reset`) plus the one-way `IsDone` latch. -/
structure QuittableBackOff where
  init : List Duration
  cur : List Duration
  IsDone : Bool
deriving DecidableEq, Repr

namespace QuittableBackOff

/-- `func (b *QuittableBackOff) Done()`. -/
def Done (b : QuittableBackOff) : QuittableBackOff := { b with IsDone := true }

/-- `func (b *QuittableBackOff) Reset()`: clears the latch and resets the
underlying generator to its initial state. -/
def Reset (b : QuittableBackOff) : QuittableBackOff :=
  { b with IsDone := false, cur := b.init }

/-- `func (b *QuittableBackOff) NextBackOff() time.Duration`: `Stop` if the
latch is set, otherwise the underlying generator's next wait (`Stop` once
the generator's own budget is exhausted). -/
def NextBackOff (b : QuittableBackOff) : Duration × QuittableBackOff :=
  if b.IsDone then (backoffStop, b)
  else
    match b.cur with
    | [] => (backoffStop, b)
    | d :: rest => (d, { b with cur := rest })

end QuittableBackOff

/-- HTTP headers, as a list of name/value pairs. -/
abbrev Header := List (String × String)

/-- `http.Header.Get`: the first value for the key, `""` when absent. -/
def headerGet (h : Header) (k : String) : String :=
  match h.find? (fun p => p.1 = k) with
  | some p => p.2
  | none => ""

def acceptHeader : String := "Accept-Ranges"
def acceptValue : String := "bytes"
def clenHeader : String := "Content-Length"

/-! ## `strconv.ParseInt(s, 10, 0)` with the error discarded -/

/-- Result of Go's `strconv.ParseUint` digit loop: the parsed value, a
range error (which still reports the extremal value), or a syntax error. -/
inductive PUResult where
  | ok (n : Nat)
  | rangeErr (n : Nat)
  | syntaxErr
deriving DecidableEq, Repr

/-- The digit loop of `strconv.ParseUint(s, 10, 64)`.  `1844674407370955162`
is Go's `cutoff = maxUint64/10 + 1`; `18446744073709551615` is `maxUint64`.
On overflow it returns `maxUint64` together with a range error, without
consuming the rest of the string. -/
def parseUintLoop : Nat → List Char → PUResult
  | n, [] => .ok n
  | n, c :: cs =>
    if c.isDigit then
      if n ≥ 1844674407370955162 then .rangeErr 18446744073709551615
      else
        let n1 := n * 10 + (c.toNat - 48)
        if n1 > 18446744073709551615 then .rangeErr 18446744073709551615
        else parseUintLoop n1 cs
    else .syntaxErr

/-- The final clamping step of `strconv.ParseInt` for `bitSize = 0` (64-bit
`int`): values `≥ 2^63` clamp to `maxInt64`, values `< -2^63` to `minInt64`.
The range error that accompanies a clamped value is discarded by the caller. -/
def clampInt64 (neg : Bool) (un : Nat) : Int :=
  if !neg ∧ un ≥ 9223372036854775808 then 9223372036854775807
  else if neg ∧ un > 9223372036854775808 then -9223372036854775808
  else if neg then -(un : Int) else (un : Int)

/-- After sign stripping, `strconv.ParseInt` runs `ParseUint` on the digit
part (an empty digit part is a syntax error yielding 0) and clamps, with
any error discarded by the caller. -/
def goParseIntCore (neg : Bool) (digits : List Char) : Int :=
  if digits.isEmpty then 0
  else
    match parseUintLoop 0 digits with
    | .syntaxErr => 0
    | .ok un => clampInt64 neg un
    | .rangeErr un => clampInt64 neg un

/-- The sign-stripping step of `strconv.ParseInt`. -/
def goParseSigned (c : Char) (cs : List Char) : Int :=
  if c = '-' then goParseIntCore true cs
  else if c = '+' then goParseIntCore false cs
  else goParseIntCore false (c :: cs)

/-- `i, _ := strconv.ParseInt(s, 10, 0)` as in `setResponse`: the parsed
value with the error ignored.  Syntax errors (empty string, any non-digit)
yield `0`; range errors yield the clamped extremal value. -/
def goParseInt (s : String) : Int :=
  match s.toList with
  | [] => 0
  | c :: cs => goParseSigned c cs

/-! ## Response bodies -/

/-- The error half of an `io.Reader` result: `io.EOF` or any other Go error. -/
inductive RErr where
  | eof
  | other
deriving DecidableEq, Repr

/-- One result of a `Read` call on a body: the bytes delivered by that call
together with an optional error (Go readers may return bytes and an error
from the same call). -/
structure ReadStep where
  bytes : List Nat
  err : Option RErr
deriving DecidableEq, Repr

/-- An `io.ReadCloser` response body: the remaining read results and whether
`Close` has been called. -/
structure GoBody where
  steps : List ReadStep
  closed : Bool
deriving DecidableEq, Repr

namespace GoBody

/-- One `Read` call on the body.  A closed body yields a non-EOF error; an
exhausted open body yields `io.EOF`. -/
def read (b : GoBody) : (List Nat × Option RErr) × GoBody :=
  if b.closed then (([], some .other), b)
  else
    match b.steps with
    | [] => (([], some .eof), b)
    | s :: rest => ((s.bytes, s.err), { b with steps := rest })

/-- `Close()`. -/
def close (b : GoBody) : GoBody := { b with closed := true }

/-- The steps remaining after `io.Copy(ioutil.Discard, body)`: the copy
reads until the first erroring read result (inclusive). -/
def drainSteps : List ReadStep → List ReadStep
  | [] => []
  | s :: rest =>
    match s.err with
    | none => drainSteps rest
    | some _ => rest

/-- `io.Copy(ioutil.Discard, body)`: reads the body to its first error.
On a closed body the very first read errors, consuming nothing. -/
def drain (b : GoBody) : GoBody :=
  if b.closed then b else { b with steps := drainSteps b.steps }

end GoBody

/-- An HTTP response as the getter sees it: status code, headers, body. -/
structure Response where
  statusCode : Int
  header : Header
  body : GoBody
deriving DecidableEq, Repr

/-- The outcome of one `client.Do(req)` call: a Go transport error, or a
response. -/
inductive Outcome where
  | goErr
  | resp (r : Response)
deriving DecidableEq, Repr

/-- One step of the external server/transport: what it does on the next
physical attempt, as a function of the `Range` header on the request
(`none` when the request carries no `Range` header). -/
abbrev ServerStep := Option (Int × Int) → Outcome

/-- The remaining behavior of the external world, one entry per attempt. -/
abbrev Env := List ServerStep

/-- The Go errors `connect` and `Read` can return: `io.EOF`, a transport
error, `EmptyResponse`, or the `"Expected status code %d, got %d"` error. -/
inductive GoError where
  | eof
  | transport
  | emptyResponse
  | statusErr (expected got : Int)
deriving DecidableEq, Repr

/-- The mutable state of an `HttpGetter` (`getter.go`).  `reqRange` is the
`Range` header currently set on `g.Request` (rewritten on resume attempts);
`hasher` is the byte stream written to the hash, `none` while no hash is
installed; `rcbLog` records the argument of each response-callback
invocation (`none` for a transport error); `ccbCalls` counts close-callback
invocations; `next` is the stored `g.next` wait. -/
structure GState where
  reqRange : Option (Int × Int)
  Body : Option GoBody
  Attempts : Nat
  ContentLength : Int
  BytesRead : Int
  StatusCode : Int
  Header : Header
  hasher : Option (List Nat)
  b : QuittableBackOff
  rcbLog : List (Option Response)
  ccbCalls : Nat
  next : Duration
  closed : Bool
deriving DecidableEq, Repr

/-- `Getter(req)`, then `SetBackOff` with a backoff generator that will hand
out the waits `binit`: the freshly initialized getter.  No hash is installed
yet (`g.hasher` is the nil interface until `SetHash`/`Do`). -/
def Getter (binit : List Duration) : GState :=
  { reqRange := none
    Body := none
    Attempts := 0
    ContentLength := 0
    BytesRead := 0
    StatusCode := 0
    Header := []
    hasher := none
    b := { init := binit, cur := binit, IsDone := false }
    rcbLog := []
    ccbCalls := 0
    next := 0
    closed := false }

/-- `SetHash(nil)`: installs a fresh (empty) hash. -/
def SetHash (g : GState) : GState := { g with hasher := some [] }

/-- The nil-checked default installation at the top of `Do()`: installs the
default hash when none is set (the backoff, client and callbacks are already
part of the model state). -/
def withDefaults (g : GState) : GState :=
  { g with hasher := some (g.hasher.getD []) }

/-- `func (g *HttpGetter) setResponse(res *http.Response)`: records status,
header and content length from the first recorded response only; marks the
backoff done when the response lacks `Accept-Ranges: bytes`. -/
def setResponse (g : GState) (res : Response) : GState :=
  if 0 < g.StatusCode then g
  else
    let g1 := { g with StatusCode := res.statusCode, Header := res.header }
    let g2 :=
      if headerGet res.header acceptHeader = acceptValue then g1
      else { g1 with b := g1.b.Done }
    { g2 with ContentLength := goParseInt (headerGet res.header clenHeader) }

/-- The `expectedStatus` computed at the top of `connect`: `206` when bytes
have been delivered and a positive content length is recorded, else `200`. -/
def expectedStatusOf (g : GState) : Int :=
  if 0 < g.BytesRead ∧ 0 < g.ContentLength then 206 else 200

/-- The `Range` header rewrite in `connect`: when `BytesRead > 0` and
`ContentLength > 0`, set `Range: bytes=<BytesRead>-<ContentLength-1>`. -/
def applyRange (g : GState) : GState :=
  if 0 < g.BytesRead ∧ 0 < g.ContentLength then
    { g with reqRange := some (g.BytesRead, g.ContentLength - 1) }
  else g

/-- `g.Attempts += 1; g.rcb(res, err)`: one physical attempt was made and
the response callback observed it. -/
def recordAttempt (g : GState) (o : Option Response) : GState :=
  { g with Attempts := g.Attempts + 1, rcbLog := g.rcbLog ++ [o] }

/-- The non-matching-status branch of `connect`.  On entry `g.Body` holds
`res.body` (the two alias the same object, which this function threads
explicitly as `shared`): a failed resume attempt (`exp = 206`) first closes
and clears the body; then a non-5xx positive status records the response and
latches the backoff, while a 5xx (or non-positive) status drains and closes
the body (a no-op read on an already closed body). -/
def connectMismatch (g : GState) (res : Response) (exp : Int) (env' : Env) :
    Option GoError × GState × Env :=
  let shared := res.body
  let g1 := if exp = 206 then { g with Body := none } else g
  let shared1 := if exp = 206 then shared.close else shared
  if 0 < res.statusCode ∧ (res.statusCode < 500 ∨ 599 < res.statusCode) then
    let g2 := setResponse g1 res
    (some (.statusErr exp res.statusCode), { g2 with b := g2.b.Done }, env')
  else
    let drained := (shared1.drain).close
    let g2 := if exp = 206 then g1 else { g1 with Body := some drained }
    (some (.statusErr exp res.statusCode), g2, env')

/-- `func (g *HttpGetter) connect() error`: one physical attempt.  Fails
immediately with `io.EOF` when the latch is set; otherwise computes the
expected status, rewrites the `Range` header on resume, executes the request
(consuming one server step; an exhausted environment behaves as a transport
that keeps failing), counts the attempt, invokes the response callback, and
dispatches on the outcome exactly as `getter.go` does. -/
def connect (g : GState) (env : Env) : Option GoError × GState × Env :=
  if g.b.IsDone then (some .eof, g, env)
  else
    let exp := expectedStatusOf g
    let g1 := applyRange g
    match env with
    | [] => (some .transport, recordAttempt g1 none, [])
    | f :: env' =>
      match f g1.reqRange with
      | .goErr => (some .transport, recordAttempt g1 none, env')
      | .resp res =>
        let g2 := recordAttempt g1 (some res)
        if res.statusCode = 0 then (some .emptyResponse, g2, env')
        else
          let g3 := { g2 with Body := some res.body }
          if res.statusCode = exp then (none, setResponse g3 res, env')
          else connectMismatch g3 res exp env'

/-- `func (g *HttpGetter) reset() error`: closes and drops the body. -/
def resetBody (g : GState) : GState := { g with Body := none }

/-- The body-reading half of `Read` (`g.Body.Read(b)` onward), given the
open body object `bo` currently stored in `g.Body`: bytes delivered are
counted into `BytesRead` and written to the hash; any read error closes and
drops the body; a non-EOF error is swallowed (`return read, nil`), EOF is
propagated. -/
def readBody (g : GState) (bo : GoBody) (env : Env) :
    (List Nat × Option GoError) × GState × Env :=
  let ((bs, berr), bo') := bo.read
  let g1 := { g with Body := some bo' }
  let g2 :=
    if 0 < bs.length then
      { g1 with BytesRead := g1.BytesRead + bs.length
                hasher := g1.hasher.map (· ++ bs) }
    else g1
  match berr with
  | none => ((bs, none), g2, env)
  | some .other => ((bs, none), resetBody g2, env)
  | some .eof => ((bs, some .eof), resetBody g2, env)

/-- `func (g *HttpGetter) Read(b []byte) (int, error)`: when no body is
open, one `connect` attempt is made; on failure, a `Stop` wait returns the
error, otherwise the wait is slept and a zero-byte no-error result tells the
caller to call again; on success the backoff is reset and the new body is
read.  With a body open, it is read directly. -/
def Read (g : GState) (env : Env) : (List Nat × Option GoError) × GState × Env :=
  match g.Body with
  | some bo => readBody g bo env
  | none =>
    match connect g env with
    | (some err, g1, env1) =>
      let (nxt, b2) := g1.b.NextBackOff
      let g2 := { g1 with b := b2, next := nxt }
      if nxt = backoffStop then (([], some err), g2, env1)
      else (([], none), g2, env1)
    | (none, g1, env1) =>
      let g2 := { g1 with b := g1.b.Reset }
      match g2.Body with
      | some bo => readBody g2 bo env1
      | none => (([], none), g2, env1)

/-- The retry driver `backoff.Retry(g.connect, g.b)` of the external backoff
library, modelled from the spec: perform an attempt; on success stop; on
failure ask the backoff for the next wait — `Stop` returns the error,
otherwise sleep and repeat.  The first argument is the queue of waits the
underlying generator will hand out, kept in lock-step with `g.b.cur` (each
continuing iteration pops exactly one wait, as `NextBackOff` does). -/
def retryGo : List Duration → GState → Env → Option GoError × GState × Env
  | waits, g, env =>
    match connect g env with
    | (none, g1, env1) => (none, g1, env1)
    | (some e, g1, env1) =>
      if g1.b.IsDone then (some e, g1, env1)
      else
        match waits with
        | [] => (some e, g1, env1)
        | d :: rest =>
          let g2 := { g1 with b := { g1.b with cur := rest } }
          if d = backoffStop then (some e, g2, env1)
          else retryGo rest g2 env1

/-- `func (g *HttpGetter) Do() (int, http.Header)`: installs defaults, runs
the retry loop, and returns the recorded status code and header — the retry
loop's final error is discarded. -/
def Do (g : GState) (env : Env) : (Int × Header) × GState × Env :=
  let g0 := withDefaults g
  let (_, g1, env1) := retryGo g0.b.cur g0 env
  ((g1.StatusCode, g1.Header), g1, env1)

/-- `func (g *HttpGetter) Close() error`: latches the backoff, fires the
close callback once (idempotently), and releases the body. -/
def Close (g : GState) : GState :=
  let g1 := { g with b := g.b.Done }
  let g2 :=
    if ¬ g1.closed then { g1 with ccbCalls := g1.ccbCalls + 1, closed := true }
    else g1
  resetBody g2

/-! ## SHA-256 and `Sha256()` -/

/-- Addition modulo `2^32`. -/
def w32add (a b : Nat) : Nat := (a + b) % 4294967296

/-- Right rotation of a 32-bit word. -/
def rotr32 (x n : Nat) : Nat :=
  (x / 2 ^ n + x % 2 ^ n * 2 ^ (32 - n)) % 4294967296

/-- Right shift of a 32-bit word. -/
def shr32 (x n : Nat) : Nat := x / 2 ^ n

/-- Bitwise XOR restricted to 32 bits. -/
def wxor (a b : Nat) : Nat := (a ^^^ b) % 4294967296

/-- Bitwise AND. -/
def wand (a b : Nat) : Nat := a &&& b

/-- Bitwise NOT on 32 bits. -/
def wnot (a : Nat) : Nat := 4294967295 - a % 4294967296

/-- The SHA-256 round constants (the fractional parts of the cube roots of
the first sixty-four primes, scaled to 32 bits; written in decimal). -/
def sha256K : List Nat :=
  [1116352408, 1899447441, 3049323471, 3921009573, 961987163,
   1508970993, 2453635748, 2870763221, 3624381080, 310598401,
   607225278, 1426881987, 1925078388, 2162078206, 2614888103,
   3248222580, 3835390401, 4022224774, 264347078, 604807628,
   770255983, 1249150122, 1555081692, 1996064986, 2554220882,
   2821834349, 2952996808, 3210313671, 3336571891, 3584528711,
   113926993, 338241895, 666307205, 773529912, 1294757372,
   1396182291, 1695183700, 1986661051, 2177026350, 2456956037,
   2730485921, 2820302411, 3259730800, 3345764771, 3516065817,
   3600352804, 4094571909, 275423344, 430227734, 506948616,
   659060556, 883997877, 958139571, 1322822218, 1537002063,
   1747873779, 1955562222, 2024104815, 2227730452, 2361852424,
   2428436474, 2756734187, 3204031479, 3329325298]

/-- SHA-256 padding: append `0x80`, zero bytes, and the 64-bit big-endian
bit length, reaching a multiple of 64 bytes. -/
def sha256pad (msg : List Nat) : List Nat :=
  let len := msg.length
  let padZeros := (119 - len % 64) % 64
  let bitLen := len * 8
  msg ++ [128] ++ List.replicate padZeros 0 ++
    [bitLen / 2 ^ 56 % 256, bitLen / 2 ^ 48 % 256, bitLen / 2 ^ 40 % 256,
     bitLen / 2 ^ 32 % 256, bitLen / 2 ^ 24 % 256, bitLen / 2 ^ 16 % 256,
     bitLen / 2 ^ 8 % 256, bitLen % 256]

/-- Group a padded byte list into 32-bit big-endian words. -/
def bytesToWords : List Nat → List Nat
  | a :: b :: c :: d :: rest =>
    (a % 256 * 16777216 + b % 256 * 65536 + c % 256 * 256 + d % 256) :: bytesToWords rest
  | _ => []

/-- Extend 16 message words to the 64-entry message schedule. -/
def sha256schedule (ws : List Nat) : Nat → List Nat
  | 0 => ws
  | n + 1 =>
    let prev := sha256schedule ws n
    let t := prev.length
    let get := fun i => prev.getD i 0
    let w15 := get (t - 15)
    let w2 := get (t - 2)
    let s0 := wxor (wxor (rotr32 w15 7) (rotr32 w15 18)) (shr32 w15 3)
    let s1 := wxor (wxor (rotr32 w2 17) (rotr32 w2 19)) (shr32 w2 10)
    prev ++ [w32add (w32add (get (t - 16)) s0) (w32add (get (t - 7)) s1)]

/-- One round of the SHA-256 compression function. -/
def sha256round (st : List Nat) (kw : Nat × Nat) : List Nat :=
  match st with
  | [a, b, c, d, e, f, g, h] =>
    let s1 := wxor (wxor (rotr32 e 6) (rotr32 e 11)) (rotr32 e 25)
    let ch := wxor (wand e f) (wand (wnot e) g)
    let t1 := w32add (w32add (w32add h s1) (w32add ch kw.1)) kw.2
    let s0 := wxor (wxor (rotr32 a 2) (rotr32 a 13)) (rotr32 a 22)
    let mj := wxor (wxor (wand a b) (wand a c)) (wand b c)
    let t2 := w32add s0 mj
    [w32add t1 t2, a, b, c, w32add d t1, e, f, g]
  | st => st

/-- Process one 16-word block into the running hash state. -/
def sha256block (h : List Nat) (blk : List Nat) : List Nat :=
  let ws := sha256schedule blk 48
  let st := (sha256K.zip ws).foldl (fun s kw => sha256round s kw) h
  (h.zip st).map fun p => w32add p.1 p.2

/-- Fold the given number of 16-word blocks of the padded word list into the
running hash state (the padded message has exactly `length / 16` blocks). -/
def sha256blocks (h : List Nat) (ws : List Nat) : Nat → List Nat
  | 0 => h
  | n + 1 => sha256blocks (sha256block h (ws.take 16)) (ws.drop 16) n

/-- The SHA-256 digest of a byte list, as eight 32-bit words. -/
def sha256words (msg : List Nat) : List Nat :=
  let ws := bytesToWords (sha256pad msg)
  sha256blocks
    [1779033703, 3144134277, 1013904242, 2773480762,
     1359893119, 2600822924, 528734635, 1541459225]
    ws (ws.length / 16)

/-- One hex digit. -/
def hexDigit (n : Nat) : Char :=
  if n < 10 then Char.ofNat (48 + n) else Char.ofNat (87 + n)

/-- `hex.EncodeToString` of a 32-bit word (eight hex digits). -/
def wordHex (w : Nat) : List Char :=
  [hexDigit (w / 2 ^ 28 % 16), hexDigit (w / 2 ^ 24 % 16),
   hexDigit (w / 2 ^ 20 % 16), hexDigit (w / 2 ^ 16 % 16),
   hexDigit (w / 2 ^ 12 % 16), hexDigit (w / 2 ^ 8 % 16),
   hexDigit (w / 2 ^ 4 % 16), hexDigit (w % 16)]

/-- The hex-encoded SHA-256 digest of a byte list. -/
def sha256hex (msg : List Nat) : String :=
  String.mk ((sha256words msg).flatMap wordHex)

/-- `func (g *HttpGetter) Sha256() string`: hex-encodes the digest of the
bytes hashed so far.  `none` models the nil-interface dereference that
occurs when no hash has been installed yet. -/
def Sha256 (g : GState) : Option String := g.hasher.map sha256hex

/-! ## Caller-side drivers -/

/-- The result of an `io.Copy(w, g)` download loop. -/
inductive CopyRes where
  | success
  | failed (e : GoError)
  | fuelOut
deriving DecidableEq, Repr

/-- `io.Copy(w, g)`: call `Read` until it errors; `io.EOF` ends the copy
successfully, any other error fails it.  Bytes returned together with an
error are still written out first.  `fuel` bounds the number of `Read`
calls (a run that exhausts it reports `fuelOut`). -/
def copyLoop : Nat → GState → Env → List Nat × CopyRes × GState × Env
  | 0, g, env => ([], .fuelOut, g, env)
  | n + 1, g, env =>
    let r := Read g env
    match r.1.2 with
    | none =>
      let rest := copyLoop n r.2.1 r.2.2
      (r.1.1 ++ rest.1, rest.2)
    | some .eof => (r.1.1, .success, r.2.1, r.2.2)
    | some e => (r.1.1, .failed e, r.2.1, r.2.2)

/-- An operation a caller can perform on the getter. -/
inductive Op where
  | doOp
  | read
  | close
deriving DecidableEq, Repr

/-- The state/environment effect of one caller operation. -/
def step (p : GState × Env) : Op → GState × Env
  | .doOp => ((Do p.1 p.2).2.1, (Do p.1 p.2).2.2)
  | .read => ((Read p.1 p.2).2.1, (Read p.1 p.2).2.2)
  | .close => (Close p.1, p.2)

/-- Run a sequence of caller operations. -/
def runOps (p : GState × Env) (ops : List Op) : GState × Env :=
  ops.foldl step p

/-- `Do` followed by an `io.Copy` read loop: the full lifecycle of one
download by the standard caller. -/
def downloadRun (binit : List Duration) (env : Env) (fuel : Nat) :
    List Nat × CopyRes × GState × Env :=
  let g0 := withDefaults (Getter binit)
  let p := Do g0 env
  copyLoop fuel p.2.1 p.2.2

/-! ## A well-behaved resumable server

For the end-to-end correctness claim the external world is constrained to
transport drops and retryable failures over a server that serves a fixed
resource `content` faithfully and supports byte ranges. -/

/-- `stepsServe data steps`: the body's read results deliver `data` in
order.  Each read's bytes continue `data` exactly; a read that ends in
`io.EOF` may only do so once all of `data` has been delivered (Go's HTTP
body reports `ErrUnexpectedEOF`, not `io.EOF`, on a truncated response); a
read ending in another error (a drop) may truncate; if the results run out,
the model's body read reports `io.EOF`, so `data` must be exhausted. -/
def stepsServe : List Nat → List ReadStep → Bool
  | data, [] => data.isEmpty
  | data, s :: rest =>
    (data.take s.bytes.length == s.bytes) &&
      match s.err with
      | none => stepsServe (data.drop s.bytes.length) rest
      | some .eof => (data.drop s.bytes.length).isEmpty
      | some .other => true

/-- A retryable response: empty (status 0) or a server error (5xx). -/
def RespRetryable (r : Response) : Prop :=
  r.statusCode = 0 ∨ (500 ≤ r.statusCode ∧ r.statusCode ≤ 599)

/-- A faithful full response for `content`: a 200 advertising range support
and the exact content length, whose open body delivers `content`. -/
def ServesFull (content : List Nat) (r : Response) : Prop :=
  r.statusCode = 200 ∧ headerGet r.header acceptHeader = acceptValue ∧
  goParseInt (headerGet r.header clenHeader) = (content.length : Int) ∧
  r.body.closed = false ∧ stepsServe content r.body.steps = true

/-- A faithful partial response for a `Range` starting at `s`: a 206 whose
open body delivers `content` from offset `s` on. -/
def ServesRange (content : List Nat) (s : Int) (r : Response) : Prop :=
  r.statusCode = 206 ∧ r.body.closed = false ∧
  stepsServe (content.drop s.toNat) r.body.steps = true

/-- What a well-behaved server may do on a request without a `Range`
header: fail retryably, or serve the full resource. -/
def FullOutcomeOK (content : List Nat) : Outcome → Prop
  | .goErr => True
  | .resp r => RespRetryable r ∨ ServesFull content r

/-- What a well-behaved server may do on a request with a `Range` header
starting at `s`: fail retryably, or serve the requested suffix. -/
def RangeOutcomeOK (content : List Nat) (s : Int) : Outcome → Prop
  | .goErr => True
  | .resp r => RespRetryable r ∨ ServesRange content s r

/-- One server step is well-behaved for `content`. -/
def ServerOK (content : List Nat) (f : ServerStep) : Prop :=
  FullOutcomeOK content (f none) ∧
  ∀ se : Int × Int, RangeOutcomeOK content se.1 (f (some se))

/-- Every remaining server step is well-behaved for `content`. -/
def EnvOK (content : List Nat) (env : Env) : Prop :=
  ∀ f ∈ env, ServerOK content f

/-- `g.Body` is absent, already closed, or an open body that delivers the
rest of `content` after the first `k` bytes. -/
def BodyOK (content : List Nat) (k : Nat) : Option GoBody → Prop
  | none => True
  | some bo => bo.closed = true ∨ stepsServe (content.drop k) bo.steps = true

/-- `g.Body` is absent or already closed. -/
def BodyClosed : Option GoBody → Prop
  | none => True
  | some bo => bo.closed = true

/-- The getter invariant for a download of `content` against a well-behaved
server: the backoff latch is never set, exactly the first `k` bytes have
been delivered and hashed, the recorded status/content-length are either
still unset (with nothing delivered and no readable body) or those of the
resource, the `Range` header is only ever set on genuine resume attempts,
and any open body delivers the rest of the resource. -/
def Inv (content : List Nat) (g : GState) : Prop :=
  g.b.IsDone = false ∧
  ∃ k : Nat,
    g.BytesRead = (k : Int) ∧ k ≤ content.length ∧
    g.hasher = some (content.take k) ∧
    ((g.StatusCode = 0 ∧ g.ContentLength = 0 ∧ k = 0 ∧ BodyClosed g.Body) ∨
     (g.StatusCode = 200 ∧ g.ContentLength = (content.length : Int) ∧
       BodyOK content k g.Body)) ∧
    (g.reqRange = none ∨ (0 < g.BytesRead ∧ 0 < g.ContentLength))

/-! ## Field-preservation lemmas -/

@[simp] theorem Done_cur (b : QuittableBackOff) : b.Done.cur = b.cur := rfl
@[simp] theorem Done_init (b : QuittableBackOff) : b.Done.init = b.init := rfl
@[simp] theorem Done_IsDone (b : QuittableBackOff) : b.Done.IsDone = true := rfl

@[simp] theorem recordAttempt_hasher (g : GState) (o : Option Response) :
    (recordAttempt g o).hasher = g.hasher := rfl
@[simp] theorem recordAttempt_BytesRead (g : GState) (o : Option Response) :
    (recordAttempt g o).BytesRead = g.BytesRead := rfl
@[simp] theorem recordAttempt_b (g : GState) (o : Option Response) :
    (recordAttempt g o).b = g.b := rfl
@[simp] theorem recordAttempt_Body (g : GState) (o : Option Response) :
    (recordAttempt g o).Body = g.Body := rfl
@[simp] theorem recordAttempt_StatusCode (g : GState) (o : Option Response) :
    (recordAttempt g o).StatusCode = g.StatusCode := rfl
@[simp] theorem recordAttempt_Header (g : GState) (o : Option Response) :
    (recordAttempt g o).Header = g.Header := rfl
@[simp] theorem recordAttempt_ContentLength (g : GState) (o : Option Response) :
    (recordAttempt g o).ContentLength = g.ContentLength := rfl
@[simp] theorem recordAttempt_reqRange (g : GState) (o : Option Response) :
    (recordAttempt g o).reqRange = g.reqRange := rfl
@[simp] theorem recordAttempt_Attempts (g : GState) (o : Option Response) :
    (recordAttempt g o).Attempts = g.Attempts + 1 := rfl
@[simp] theorem recordAttempt_rcbLog (g : GState) (o : Option Response) :
    (recordAttempt g o).rcbLog = g.rcbLog ++ [o] := rfl

@[simp] theorem applyRange_hasher (g : GState) : (applyRange g).hasher = g.hasher := by
  rw [applyRange]; split <;> rfl
@[simp] theorem applyRange_BytesRead (g : GState) : (applyRange g).BytesRead = g.BytesRead := by
  rw [applyRange]; split <;> rfl
@[simp] theorem applyRange_b (g : GState) : (applyRange g).b = g.b := by
  rw [applyRange]; split <;> rfl
@[simp] theorem applyRange_Body (g : GState) : (applyRange g).Body = g.Body := by
  rw [applyRange]; split <;> rfl
@[simp] theorem applyRange_StatusCode (g : GState) : (applyRange g).StatusCode = g.StatusCode := by
  rw [applyRange]; split <;> rfl
@[simp] theorem applyRange_Header (g : GState) : (applyRange g).Header = g.Header := by
  rw [applyRange]; split <;> rfl
@[simp] theorem applyRange_ContentLength (g : GState) :
    (applyRange g).ContentLength = g.ContentLength := by
  rw [applyRange]; split <;> rfl
@[simp] theorem applyRange_Attempts (g : GState) : (applyRange g).Attempts = g.Attempts := by
  rw [applyRange]; split <;> rfl
@[simp] theorem applyRange_rcbLog (g : GState) : (applyRange g).rcbLog = g.rcbLog := by
  rw [applyRange]; split <;> rfl

@[simp] theorem setResponse_hasher (g : GState) (res : Response) :
    (setResponse g res).hasher = g.hasher := by
  rw [setResponse]; split
  · rfl
  · split <;> rfl
@[simp] theorem setResponse_BytesRead (g : GState) (res : Response) :
    (setResponse g res).BytesRead = g.BytesRead := by
  rw [setResponse]; split
  · rfl
  · split <;> rfl
@[simp] theorem setResponse_b_cur (g : GState) (res : Response) :
    (setResponse g res).b.cur = g.b.cur := by
  rw [setResponse]; split
  · rfl
  · split <;> rfl
@[simp] theorem setResponse_b_init (g : GState) (res : Response) :
    (setResponse g res).b.init = g.b.init := by
  rw [setResponse]; split
  · rfl
  · split <;> rfl
@[simp] theorem setResponse_Body (g : GState) (res : Response) :
    (setResponse g res).Body = g.Body := by
  rw [setResponse]; split
  · rfl
  · split <;> rfl
@[simp] theorem setResponse_Attempts (g : GState) (res : Response) :
    (setResponse g res).Attempts = g.Attempts := by
  rw [setResponse]; split
  · rfl
  · split <;> rfl
@[simp] theorem setResponse_rcbLog (g : GState) (res : Response) :
    (setResponse g res).rcbLog = g.rcbLog := by
  rw [setResponse]; split
  · rfl
  · split <;> rfl
@[simp] theorem setResponse_reqRange (g : GState) (res : Response) :
    (setResponse g res).reqRange = g.reqRange := by
  rw [setResponse]; split
  · rfl
  · split <;> rfl

theorem connectMismatch_pres (g : GState) (res : Response) (exp : Int) (env' : Env) :
    (connectMismatch g res exp env').2.1.hasher = g.hasher ∧
    (connectMismatch g res exp env').2.1.BytesRead = g.BytesRead ∧
    (connectMismatch g res exp env').2.1.b.cur = g.b.cur ∧
    (connectMismatch g res exp env').2.1.b.init = g.b.init ∧
    (connectMismatch g res exp env').2.2 = env' := by
  rw [connectMismatch]
  repeat' split <;> simp

theorem connect_pres (g : GState) (env : Env) :
    (connect g env).2.1.hasher = g.hasher ∧
    (connect g env).2.1.BytesRead = g.BytesRead ∧
    (connect g env).2.1.b.cur = g.b.cur ∧
    (connect g env).2.1.b.init = g.b.init := by
  rw [connect]
  split
  · exact ⟨rfl, rfl, rfl, rfl⟩
  · cases env with
    | nil => simp
    | cons f env' =>
      dsimp only
      rcases hf : f (applyRange g).reqRange with _ | res
      · simp
      · by_cases h0 : res.statusCode = 0
        · simp [h0]
        · simp only [h0, if_false]
          by_cases hexp : res.statusCode = expectedStatusOf g
          · simp [hexp]
          · simp only [hexp, if_false]
            have h := connectMismatch_pres
              { (recordAttempt (applyRange g) (some res)) with Body := some res.body } res
              (expectedStatusOf g) env'
            exact ⟨h.1.trans (by simp), h.2.1.trans (by simp),
              h.2.2.1.trans (by simp), h.2.2.2.1.trans (by simp)⟩


/-! ## Latched-state lemmas -/

theorem connect_latched (g : GState) (env : Env) (h : g.b.IsDone = true) :
    connect g env = (some .eof, g, env) := by
  rw [connect, h]; rfl

theorem NextBackOff_latched (b : QuittableBackOff) (h : b.IsDone = true) :
    b.NextBackOff = (backoffStop, b) := by
  rw [QuittableBackOff.NextBackOff, h]; rfl

theorem readBody_pres (g : GState) (bo : GoBody) (env : Env) :
    (readBody g bo env).2.1.Attempts = g.Attempts ∧
    (readBody g bo env).2.1.rcbLog = g.rcbLog ∧
    (readBody g bo env).2.1.b = g.b ∧
    (readBody g bo env).2.1.StatusCode = g.StatusCode ∧
    (readBody g bo env).2.1.Header = g.Header ∧
    (readBody g bo env).2.1.ContentLength = g.ContentLength ∧
    (readBody g bo env).2.1.reqRange = g.reqRange ∧
    (readBody g bo env).2.2 = env := by
  unfold readBody resetBody
  repeat' split <;> simp_all

theorem Read_latched (g : GState) (env : Env) (h : g.b.IsDone = true)
    (hb : g.Body = none) :
    Read g env = (([], some .eof), { g with next := backoffStop }, env) := by
  rw [Read, hb]
  rw [connect_latched g env h]
  dsimp only
  rw [NextBackOff_latched g.b h]
  simp [hb]

theorem Do_latched (g : GState) (env : Env) (h : g.b.IsDone = true) :
    Do g env = ((g.StatusCode, g.Header), withDefaults g, env) := by
  rw [Do, retryGo]
  have hc : connect (withDefaults g) env = (some .eof, withDefaults g, env) :=
    connect_latched _ _ h
  rw [hc]
  simp [h, withDefaults]

theorem Close_effects (g : GState) :
    (Close g).Attempts = g.Attempts ∧ (Close g).b.IsDone = true ∧
    (Close g).hasher = g.hasher := by
  rw [Close, resetBody, QuittableBackOff.Done]
  split <;> simp

/-- Once the latch is set, no caller operation changes the attempt counter
(and the latch stays set). -/
theorem runOps_latched (ops : List Op) :
    ∀ p : GState × Env, p.1.b.IsDone = true →
      (runOps p ops).1.b.IsDone = true ∧ (runOps p ops).1.Attempts = p.1.Attempts := by
  induction ops with
  | nil => intro p h; exact ⟨h, rfl⟩
  | cons op rest ih =>
    intro p h
    have hstep : (step p op).1.b.IsDone = true ∧ (step p op).1.Attempts = p.1.Attempts := by
      cases op with
      | doOp =>
        rw [step]
        rw [Do_latched p.1 p.2 h]
        exact ⟨h, rfl⟩
      | read =>
        rw [step]
        cases hb : p.1.Body with
        | some bo =>
          have hr : Read p.1 p.2 = readBody p.1 bo p.2 := by rw [Read, hb]
          rw [hr]
          have hp := readBody_pres p.1 bo p.2
          exact ⟨hp.2.2.1 ▸ h, hp.1⟩
        | none =>
          rw [Read_latched p.1 p.2 h hb]
          exact ⟨h, rfl⟩
      | close =>
        rw [step]
        exact ⟨(Close_effects p.1).2.1, (Close_effects p.1).1⟩
    have hrest := ih (step p op) hstep.1
    rw [runOps] at hrest ⊢
    simp only [List.foldl_cons]
    exact ⟨hrest.1, hrest.2.trans hstep.2⟩

/-! ## Generic preservation through the retry loop and caller operations -/

/-- Any property preserved by `connect` and insensitive to the backoff
generator's remaining-wait queue is preserved by the retry loop. -/
theorem retryGo_ind (P : GState → Prop)
    (hconn : ∀ g env, P g → P (connect g env).2.1)
    (hcur : ∀ g cur', P g → P { g with b := { g.b with cur := cur' } }) :
    ∀ (waits : List Duration) (g : GState) (env : Env),
      P g → P (retryGo waits g env).2.1 := by
  intro waits
  induction waits with
  | nil =>
    intro g env hp
    rw [retryGo]
    rcases hc : connect g env with ⟨r, g1, env1⟩
    have h1 : P g1 := by have := hconn g env hp; rw [hc] at this; exact this
    cases r with
    | none => exact h1
    | some e =>
      dsimp only
      split
      · exact h1
      · exact h1
  | cons d rest ih =>
    intro g env hp
    rw [retryGo]
    rcases hc : connect g env with ⟨r, g1, env1⟩
    have h1 : P g1 := by have := hconn g env hp; rw [hc] at this; exact this
    cases r with
    | none => exact h1
    | some e =>
      dsimp only
      split
      · exact h1
      · split
        · exact hcur g1 rest h1
        · exact ih { g1 with b := { g1.b with cur := rest } } env1 (hcur g1 rest h1)

theorem connect_hasher (g : GState) (env : Env) :
    (connect g env).2.1.hasher = g.hasher := (connect_pres g env).1

theorem Do_hasher_isSome (g : GState) (env : Env) :
    ((Do g env).2.1.hasher).isSome = true := by
  rw [Do]
  rcases hr : retryGo (withDefaults g).b.cur (withDefaults g) env with ⟨r, g1, env1⟩
  have : (retryGo (withDefaults g).b.cur (withDefaults g) env).2.1.hasher.isSome = true := by
    refine retryGo_ind (fun s => s.hasher.isSome = true) ?_ ?_ _ _ _ ?_
    · intro s env2 hs; rw [connect_hasher]; exact hs
    · intro s cur' hs; exact hs
    · rw [withDefaults]; rfl
  rw [hr] at this
  exact this

theorem readBody_hasher_isSome (g : GState) (bo : GoBody) (env : Env)
    (h : g.hasher.isSome = true) :
    ((readBody g bo env).2.1.hasher).isSome = true := by
  unfold readBody resetBody
  repeat' split <;> simp_all

theorem Read_hasher_isSome (g : GState) (env : Env) (h : g.hasher.isSome = true) :
    ((Read g env).2.1.hasher).isSome = true := by
  rw [Read]
  cases hb : g.Body with
  | some bo => exact readBody_hasher_isSome g bo env h
  | none =>
    rcases hc : connect g env with ⟨r, g1, env1⟩
    have h1 : g1.hasher.isSome = true := by
      have := connect_hasher g env; rw [hc] at this; rw [this]; exact h
    cases r with
    | some e =>
      dsimp only
      split <;> exact h1
    | none =>
      dsimp only
      rcases hb2 : g1.Body with _ | bo
      · exact h1
      · exact readBody_hasher_isSome _ bo env1 h1

theorem step_hasher_isSome (p : GState × Env) (op : Op) (h : p.1.hasher.isSome = true) :
    ((step p op).1.hasher).isSome = true := by
  cases op with
  | doOp => exact Do_hasher_isSome p.1 p.2
  | read => exact Read_hasher_isSome p.1 p.2 h
  | close => rw [step]; rw [(Close_effects p.1).2.2]; exact h

theorem runOps_hasher_isSome (ops : List Op) :
    ∀ p : GState × Env, p.1.hasher.isSome = true →
      ((runOps p ops).1.hasher).isSome = true := by
  induction ops with
  | nil => intro p h; exact h
  | cons op rest ih =>
    intro p h
    rw [runOps, List.foldl_cons]
    exact ih (step p op) (step_hasher_isSome p op h)

set_option maxRecDepth 10000 in
/-- **C9** (corrected).  A fresh getter has no hash installed (the `nil`
`hash.Hash` interface), so digest retrieval before the defaults are
installed dereferences a nil interface: `Sha256` has no defined result
(`none`), refuting "valid to call at any time on a getter". -/
theorem C9_counterexample : Sha256 (Getter []) = none := rfl

set_option maxRecDepth 10000 in
/-- **C9** (amended).  Once a hash is installed (as `Do`'s default
installation does), digest retrieval is valid at any later point of the
lifecycle — after any sequence of `Do`/`Read`/`Close` operations it returns
a value — and before any byte has been read it returns the hex digest of
the empty byte sequence. -/
theorem C9_digest_after_defaults (binit : List Duration) (env : Env) (ops : List Op) :
    Sha256 (withDefaults (Getter binit)) =
      some "e3b0c44298fc1c149afbf4c8996fb92427ae41e4649b934ca495991b7852b855" ∧
    (Sha256 ((runOps (withDefaults (Getter binit), env) ops).1)).isSome = true := by
  have hempty : sha256hex [] =
      "e3b0c44298fc1c149afbf4c8996fb92427ae41e4649b934ca495991b7852b855" := by rfl
  constructor
  · show some (sha256hex []) = _
    rw [hempty]
  · have hs := runOps_hasher_isSome ops (withDefaults (Getter binit), env) rfl
    obtain ⟨x, hx⟩ := Option.isSome_iff_exists.mp hs
    rw [Sha256, hx]
    rfl

/-! ## C6: attempts against a set latch -/

/-- A one-response server delivering a one-byte resource, used to exhibit a
successful download's terminal `Read` result. -/
def envC6 : Env :=
  [fun _ => .resp
    { statusCode := 200
      header := [("Accept-Ranges", "bytes"), ("Content-Length", "1")]
      body := { steps := [{ bytes := [97], err := none }], closed := false } }]

/-- **C6** (counterexample).  The claim says a `Read` issued with the latch
set returns a hard failure "rather than ... a success signal".  But the
exhausted signal `connect` produces is literally `io.EOF`: a `Read` after
`Close` (latch set, no body) returns `([], io.EOF)` — byte-for-byte the
same result as the terminal `Read` of a completed successful download, so
the caller receives exactly the success signal. -/
theorem C6_counterexample :
    (Read (Close (withDefaults (Getter []))) []).1 = ([], some GoError.eof) ∧
    (Read (runOps (withDefaults (Getter []), envC6) [.doOp, .read]).1
          (runOps (withDefaults (Getter []), envC6) [.doOp, .read]).2).1
      = ([], some GoError.eof) := by
  exact ⟨rfl, rfl⟩

/-- **C6** (amended).  When the backoff latch is already set at the start of
an attempt, the attempt fails immediately without executing the HTTP
request: the state and environment are returned unchanged (no attempt
counted, no observer callback fired, no server step consumed) with `io.EOF`;
and a `Read` issued with no open body in that state returns zero bytes with
that `io.EOF` error — not the zero-byte no-error retry signal.  The error
value is `io.EOF`, the same value as the terminal success signal, so the
caller cannot distinguish this stop from a successful end-of-stream. -/
theorem C6_latched_attempt (g : GState) (env : Env)
    (h1 : g.b.IsDone = true) (h2 : g.Body = none) :
    connect g env = (some .eof, g, env) ∧
    Read g env = (([], some .eof), { g with next := backoffStop }, env) ∧
    (Read g env).2.1.Attempts = g.Attempts ∧
    (Read g env).2.1.rcbLog = g.rcbLog := by
  refine ⟨connect_latched g env h1, Read_latched g env h1 h2, ?_, ?_⟩ <;>
    rw [Read_latched g env h1 h2]

/-- Witness for C6: the latched state reached by `Close` on a fresh getter. -/
theorem C6_latched_attempt_witness :
    connect (Close (withDefaults (Getter []))) [] =
      (some .eof, Close (withDefaults (Getter [])), []) ∧
    Read (Close (withDefaults (Getter []))) [] =
      (([], some .eof), { Close (withDefaults (Getter [])) with next := backoffStop }, []) ∧
    (Read (Close (withDefaults (Getter []))) []).2.1.Attempts =
      (Close (withDefaults (Getter []))).Attempts ∧
    (Read (Close (withDefaults (Getter []))) []).2.1.rcbLog =
      (Close (withDefaults (Getter []))).rcbLog :=
  C6_latched_attempt _ _ (by rfl) (by rfl)

/-! ## C4: responses lacking `Accept-Ranges: bytes` -/

/-- A server for the C4 counterexample: a first 200 advertising range
support whose body drops after one byte, then a resumed 206 *without*
`Accept-Ranges` whose body errors at once, then a transport error. -/
def envC4 : Env :=
  [fun _ => .resp
    { statusCode := 200
      header := [("Accept-Ranges", "bytes"), ("Content-Length", "2")]
      body := { steps := [{ bytes := [97], err := some .other }], closed := false } },
   fun _ => .resp
    { statusCode := 206
      header := [("Content-Type", "text/plain")]
      body := { steps := [{ bytes := [], err := some .other }], closed := false } },
   fun _ => .goErr]

/-- **C4** (counterexample).  A *second* successful response lacking
`Accept-Ranges: bytes` (a resumed 206) does not set the latch: only the
first recorded response's headers are inspected (`setResponse` returns
early once a status is recorded).  After receiving it (two attempts made,
latch still unset) a further attempt is made — the attempt counter rises to
3 — refuting "for every successful response lacking the header ... no
further HTTP attempt is ever made". -/
theorem C4_counterexample :
    (runOps (withDefaults (Getter [0, 0, 0]), envC4) [.doOp, .read, .read]).1.Attempts = 2 ∧
    (runOps (withDefaults (Getter [0, 0, 0]), envC4) [.doOp, .read, .read]).1.b.IsDone = false ∧
    (runOps (withDefaults (Getter [0, 0, 0]), envC4) [.doOp, .read, .read, .read]).1.Attempts = 3 := by
  exact ⟨rfl, rfl, rfl⟩

/-- **C4** (amended).  When the *first recorded* successful response lacks
`Accept-Ranges: bytes`, the backoff latch is set at that moment, and from
then on the attempt counter stays fixed under every further sequence of
caller operations. -/
theorem C4_first_success_latches (g : GState) (f : ServerStep) (env' env2 : Env)
    (res : Response) (ops : List Op)
    (hdone : g.b.IsDone = false)
    (hst : g.StatusCode = 0)
    (hf : f (applyRange g).reqRange = .resp res)
    (h0 : res.statusCode ≠ 0)
    (hexp : res.statusCode = expectedStatusOf g)
    (hacc : headerGet res.header acceptHeader ≠ acceptValue) :
    (connect g (f :: env')).2.1.b.IsDone = true ∧
    (runOps ((connect g (f :: env')).2.1, env2) ops).1.Attempts
      = (connect g (f :: env')).2.1.Attempts := by
  have hlatch : (connect g (f :: env')).2.1.b.IsDone = true := by
    rw [connect]
    simp only [hdone, Bool.false_eq_true, if_false]
    rw [hf]
    simp only []
    rw [if_neg h0, if_pos hexp]
    simp [setResponse, hst, hacc]
  exact ⟨hlatch, (runOps_latched ops ((connect g (f :: env')).2.1, env2) hlatch).2⟩

/-- Witness for C4: concrete first contact whose 200 lacks `Accept-Ranges`. -/
theorem C4_first_success_latches_witness :
    (connect (withDefaults (Getter [0]))
      ((fun _ => .resp { statusCode := 200, header := [], body := { steps := [], closed := false } }) :: [])).2.1.b.IsDone = true ∧
    (runOps ((connect (withDefaults (Getter [0]))
      ((fun _ => .resp { statusCode := 200, header := [], body := { steps := [], closed := false } }) :: [])).2.1, []) [.read]).1.Attempts
      = (connect (withDefaults (Getter [0]))
      ((fun _ => .resp { statusCode := 200, header := [], body := { steps := [], closed := false } }) :: [])).2.1.Attempts :=
  C4_first_success_latches _ _ _ [] _ [.read] (by rfl) (by rfl) (by rfl)
    (by decide) (by rfl) (by decide)

/-! ## Reduction of `connect` on a non-matching response -/

theorem connect_mismatch_eq (g : GState) (f : ServerStep) (env' : Env) (res : Response)
    (hdone : g.b.IsDone = false)
    (hf : f (applyRange g).reqRange = .resp res)
    (h0 : res.statusCode ≠ 0)
    (hne : res.statusCode ≠ expectedStatusOf g) :
    connect g (f :: env') =
      connectMismatch { recordAttempt (applyRange g) (some res) with Body := some res.body }
        res (expectedStatusOf g) env' := by
  rw [connect]
  simp only [hdone, Bool.false_eq_true, if_false]
  rw [hf]
  simp only []
  rw [if_neg h0, if_neg hne]

theorem expectedStatusOf_cases (g : GState) :
    expectedStatusOf g = 206 ∨ expectedStatusOf g = 200 := by
  rw [expectedStatusOf]; split
  · exact Or.inl rfl
  · exact Or.inr rfl

/-- A fresh, default-configured getter with a single zero backoff wait. -/
def gFresh : GState := withDefaults (Getter [0])

theorem setResponse_zero (s : GState) (res : Response) (h : s.StatusCode = 0) :
    (setResponse s res).StatusCode = res.statusCode ∧
    (setResponse s res).Header = res.header := by
  rw [setResponse, if_neg (by rw [h]; omega)]
  split <;> exact ⟨rfl, rfl⟩

theorem setResponse_recorded (s : GState) (res : Response) (h : 0 < s.StatusCode) :
    setResponse s res = s := by
  rw [setResponse, if_pos h]

theorem setResponse_recorded_StatusCode (s : GState) (res : Response)
    (h : 0 < s.StatusCode) : (setResponse s res).StatusCode = s.StatusCode := by
  rw [setResponse_recorded s res h]

theorem setResponse_recorded_Header (s : GState) (res : Response)
    (h : 0 < s.StatusCode) : (setResponse s res).Header = s.Header := by
  rw [setResponse_recorded s res h]

/-- **C2** (confirmed).  On an attempt whose response status differs from
the expected status: a 5xx fails retryably — the "expected status" error is
returned, the latch remains unset, and the recorded status/headers are
untouched; any other positive non-matching status is terminal — the error
is still returned, the status and headers are recorded as final exactly
when nothing was recorded before (and left alone when a response was
already recorded), the latch is set, and every subsequent attempt fails
immediately without consuming a server step. -/
theorem C2_unexpected_status (g : GState) (f : ServerStep) (env' : Env) (res : Response)
    (hdone : g.b.IsDone = false)
    (hf : f (applyRange g).reqRange = .resp res)
    (hne : res.statusCode ≠ expectedStatusOf g)
    (h0 : res.statusCode ≠ 0) :
    (connect g (f :: env')).1 = some (.statusErr (expectedStatusOf g) res.statusCode) ∧
    (connect g (f :: env')).2.2 = env' ∧
    (500 ≤ res.statusCode ∧ res.statusCode ≤ 599 →
      (connect g (f :: env')).2.1.b.IsDone = false ∧
      (connect g (f :: env')).2.1.StatusCode = g.StatusCode ∧
      (connect g (f :: env')).2.1.Header = g.Header) ∧
    (0 < res.statusCode ∧ (res.statusCode < 500 ∨ 599 < res.statusCode) →
      (connect g (f :: env')).2.1.b.IsDone = true ∧
      (g.StatusCode = 0 →
        (connect g (f :: env')).2.1.StatusCode = res.statusCode ∧
        (connect g (f :: env')).2.1.Header = res.header) ∧
      (0 < g.StatusCode →
        (connect g (f :: env')).2.1.StatusCode = g.StatusCode ∧
        (connect g (f :: env')).2.1.Header = g.Header) ∧
      (∀ env2, connect (connect g (f :: env')).2.1 env2
        = (some .eof, (connect g (f :: env')).2.1, env2))) := by
  rw [connect_mismatch_eq g f env' res hdone hf h0 hne, connectMismatch]
  simp only []
  by_cases hterm : 0 < res.statusCode ∧ (res.statusCode < 500 ∨ 599 < res.statusCode)
  · rw [if_pos hterm]
    refine ⟨rfl, rfl, ?_, ?_⟩
    · intro h5; exfalso; omega
    · intro _
      rcases expectedStatusOf_cases g with hexp | hexp <;>
        · rw [hexp]
          simp only []
          norm_num
          refine ⟨fun hst => ?_, fun hst => ?_, fun env2 => ?_⟩
          · exact setResponse_zero _ res hst
          · exact ⟨setResponse_recorded_StatusCode _ res hst,
              setResponse_recorded_Header _ res hst⟩
          · exact connect_latched _ env2 rfl
  · rw [if_neg hterm]
    refine ⟨rfl, rfl, ?_, ?_⟩
    · intro h5
      rcases expectedStatusOf_cases g with hexp | hexp <;>
        rw [hexp] <;> simp [hdone]
    · intro hc; exact absurd hc hterm

/-- A terminal 404 response with a one-chunk open body. -/
def res404 : Response :=
  { statusCode := 404
    header := [("Content-Type", "text/plain")]
    body := { steps := [{ bytes := [109], err := none }], closed := false } }

/-- A retryable 500 response whose body has one data chunk then EOF. -/
def res500 : Response :=
  { statusCode := 500
    header := [("Content-Type", "text/plain")]
    body := { steps := [{ bytes := [98], err := none },
                        { bytes := [], err := some .eof }], closed := false } }

/-- Witness for C2: a first-contact 404 from a fresh getter. -/
theorem C2_unexpected_status_witness :
    (connect gFresh [fun _ => .resp res404]).1
      = some (.statusErr (expectedStatusOf gFresh) res404.statusCode) ∧
    (connect gFresh [fun _ => .resp res404]).2.2 = [] ∧
    (500 ≤ res404.statusCode ∧ res404.statusCode ≤ 599 →
      (connect gFresh [fun _ => .resp res404]).2.1.b.IsDone = false ∧
      (connect gFresh [fun _ => .resp res404]).2.1.StatusCode = gFresh.StatusCode ∧
      (connect gFresh [fun _ => .resp res404]).2.1.Header = gFresh.Header) ∧
    (0 < res404.statusCode ∧ (res404.statusCode < 500 ∨ 599 < res404.statusCode) →
      (connect gFresh [fun _ => .resp res404]).2.1.b.IsDone = true ∧
      (gFresh.StatusCode = 0 →
        (connect gFresh [fun _ => .resp res404]).2.1.StatusCode = res404.statusCode ∧
        (connect gFresh [fun _ => .resp res404]).2.1.Header = res404.header) ∧
      (0 < gFresh.StatusCode →
        (connect gFresh [fun _ => .resp res404]).2.1.StatusCode = gFresh.StatusCode ∧
        (connect gFresh [fun _ => .resp res404]).2.1.Header = gFresh.Header) ∧
      (∀ env2, connect (connect gFresh [fun _ => .resp res404]).2.1 env2
        = (some .eof, (connect gFresh [fun _ => .resp res404]).2.1, env2))) :=
  C2_unexpected_status gFresh (fun _ => .resp res404) [] res404
    (by rfl) (by rfl) (by decide) (by decide)

/-! ## C7: body handling on failed attempts -/

/-- **C7** (counterexample).  On the failed 5xx path with a full response
expected, the body is drained and closed but the getter's body field still
references it (the claim says the field is left absent); on the terminal
non-matching path with a full response expected, the body is left open and
entirely undrained in the field (the claim says it is read to completion).
Both refute the claim as stated. -/
theorem C7_counterexample :
    (Do (withDefaults (Getter [])) [fun _ => .resp res500]).2.1.Body
      = some { steps := [], closed := true } ∧
    (Do (withDefaults (Getter [])) [fun _ => .resp res404]).2.1.Body
      = some res404.body ∧
    res404.body.closed = false ∧
    res404.body.steps = [{ bytes := [109], err := none }] := by
  exact ⟨rfl, rfl, rfl, rfl⟩

/-- **C7** (amended).  Body handling on a failed attempt: when a full (200)
response was expected, a retryable (5xx or non-positive) status drains the
body to its first error and closes it, but the getter's body field keeps
referencing the closed body; a terminal status leaves the recorded response
body open in the field (it is the response delivered to the caller).  When
a partial (206) response was expected, the body is closed without draining
and the field is cleared. -/
theorem C7_failed_attempt_bodies (g : GState) (f : ServerStep) (env' : Env) (res : Response)
    (hdone : g.b.IsDone = false)
    (hf : f (applyRange g).reqRange = .resp res)
    (h0 : res.statusCode ≠ 0)
    (hne : res.statusCode ≠ expectedStatusOf g) :
    (expectedStatusOf g = 200 →
      (¬(0 < res.statusCode ∧ (res.statusCode < 500 ∨ 599 < res.statusCode)) →
        (connect g (f :: env')).2.1.Body = some res.body.drain.close) ∧
      ((0 < res.statusCode ∧ (res.statusCode < 500 ∨ 599 < res.statusCode)) →
        (connect g (f :: env')).2.1.Body = some res.body)) ∧
    (expectedStatusOf g = 206 →
      (connect g (f :: env')).2.1.Body = none) := by
  rw [connect_mismatch_eq g f env' res hdone hf h0 hne, connectMismatch]
  simp only []
  by_cases hterm : 0 < res.statusCode ∧ (res.statusCode < 500 ∨ 599 < res.statusCode)
  · rw [if_pos hterm]
    refine ⟨fun hexp => ⟨fun h => absurd hterm h, fun _ => ?_⟩, fun hexp => ?_⟩ <;>
      simp [hexp]
  · rw [if_neg hterm]
    refine ⟨fun hexp => ⟨fun _ => ?_, fun h => absurd h hterm⟩, fun hexp => ?_⟩ <;>
      simp [hexp]

/-- Witness for C7: a first-contact 500 from a fresh getter. -/
theorem C7_failed_attempt_bodies_witness :
    (expectedStatusOf gFresh = 200 →
      (¬(0 < res500.statusCode ∧ (res500.statusCode < 500 ∨ 599 < res500.statusCode)) →
        (connect gFresh [fun _ => .resp res500]).2.1.Body = some res500.body.drain.close) ∧
      ((0 < res500.statusCode ∧ (res500.statusCode < 500 ∨ 599 < res500.statusCode)) →
        (connect gFresh [fun _ => .resp res500]).2.1.Body = some res500.body)) ∧
    (expectedStatusOf gFresh = 206 →
      (connect gFresh [fun _ => .resp res500]).2.1.Body = none) :=
  C7_failed_attempt_bodies gFresh (fun _ => .resp res500) [] res500
    (by rfl) (by rfl) (by decide) (by decide)

/-! ## C5: body-read error handling in `Read` -/

/-- A server whose single response's body returns one byte *together with*
a non-EOF error in the same read call (permitted by the `io.Reader`
contract). -/
def envC5 : Env :=
  [fun _ => .resp
    { statusCode := 200
      header := [("Accept-Ranges", "bytes"), ("Content-Length", "2")]
      body := { steps := [{ bytes := [97], err := some .other }], closed := false } }]

/-- **C5** (counterexample).  When the underlying body read returns bytes
together with a non-end-of-stream error, `Read` returns `(read, nil)` —
here one byte with no error — not the claimed "zero-byte, no-error
result". -/
theorem C5_counterexample :
    (Read (Do (withDefaults (Getter [0])) envC5).2.1
          (Do (withDefaults (Getter [0])) envC5).2.2).1 = ([97], none) ∧
    (Read (Do (withDefaults (Getter [0])) envC5).2.1
          (Do (withDefaults (Getter [0])) envC5).2.2).2.1.Body = none := by
  exact ⟨rfl, rfl⟩

/-- **C5** (amended).  For every `Read` with an open body whose next read
result carries an error: the body is closed and dropped from the getter in
both cases; a non-end-of-stream error is swallowed — `Read` returns the
bytes that read delivered (possibly none) with no error — while
end-of-stream is propagated with its bytes as the terminal success signal.
The bytes delivered are still counted and hashed. -/
theorem C5_body_read_error (g : GState) (env : Env) (bo : GoBody)
    (bs : List Nat) (e : RErr) (rest : List ReadStep)
    (hbody : g.Body = some bo)
    (hopen : bo.closed = false)
    (hsteps : bo.steps = { bytes := bs, err := some e } :: rest) :
    (Read g env).2.1.Body = none ∧
    (e = .other → (Read g env).1 = (bs, none)) ∧
    (e = .eof → (Read g env).1 = (bs, some .eof)) ∧
    (Read g env).2.1.BytesRead = g.BytesRead + bs.length ∧
    (Read g env).2.1.hasher = g.hasher.map (fun h => h ++ bs) ∧
    (Read g env).2.2 = env := by
  have hread : Read g env = readBody g bo env := by
    rw [Read, hbody]
  rw [hread, readBody, GoBody.read, hopen]
  simp only [Bool.false_eq_true, if_false, hsteps]
  by_cases hlen : 0 < bs.length
  · rw [if_pos hlen]
    cases e <;>
      exact ⟨rfl, by intro h; simp_all, by intro h; simp_all, rfl, rfl, rfl⟩
  · have hbs : bs = [] := List.length_eq_zero.mp (by omega)
    rw [if_neg hlen]
    subst hbs
    cases e <;>
      refine ⟨rfl, ?_, ?_, by simp [resetBody], by simp [resetBody], rfl⟩ <;>
        intro h <;> simp_all [resetBody]

/-- Witness for C5: a body whose first read yields one byte and a non-EOF
error. -/
theorem C5_body_read_error_witness :
    (Read (Do (withDefaults (Getter [0])) envC5).2.1 []).2.1.Body = none ∧
    (RErr.other = RErr.other →
      (Read (Do (withDefaults (Getter [0])) envC5).2.1 []).1 = ([97], none)) ∧
    (RErr.other = RErr.eof →
      (Read (Do (withDefaults (Getter [0])) envC5).2.1 []).1 = ([97], some .eof)) ∧
    (Read (Do (withDefaults (Getter [0])) envC5).2.1 []).2.1.BytesRead
      = (Do (withDefaults (Getter [0])) envC5).2.1.BytesRead + ([97] : List Nat).length ∧
    (Read (Do (withDefaults (Getter [0])) envC5).2.1 []).2.1.hasher
      = (Do (withDefaults (Getter [0])) envC5).2.1.hasher.map (fun h => h ++ [97]) ∧
    (Read (Do (withDefaults (Getter [0])) envC5).2.1 []).2.2 = [] :=
  C5_body_read_error _ [] { steps := [{ bytes := [97], err := some .other }], closed := false }
    [97] .other [] (by rfl) (by rfl) (by rfl)

/-! ## C3: the expected status -/

theorem setResponse_recorded_ContentLength (s : GState) (res : Response)
    (h : 0 < s.StatusCode) : (setResponse s res).ContentLength = s.ContentLength := by
  rw [setResponse_recorded s res h]

theorem connect_recorded (g : GState) (env : Env) (h : 0 < g.StatusCode) :
    (connect g env).2.1.StatusCode = g.StatusCode ∧
    (connect g env).2.1.ContentLength = g.ContentLength ∧
    (connect g env).2.1.Header = g.Header := by
  rw [connect]
  split
  · exact ⟨rfl, rfl, rfl⟩
  · cases env with
    | nil => simp
    | cons f env' =>
      dsimp only
      rcases hf : f (applyRange g).reqRange with _ | res
      · simp
      · by_cases h0 : res.statusCode = 0
        · simp [h0]
        · simp only [h0, if_false]
          by_cases hexp : res.statusCode = expectedStatusOf g
          · simp only [hexp, if_true]
            exact ⟨(setResponse_recorded_StatusCode _ res (by simpa using h)).trans (by simp),
              (setResponse_recorded_ContentLength _ res (by simpa using h)).trans (by simp),
              (setResponse_recorded_Header _ res (by simpa using h)).trans (by simp)⟩
          · simp only [hexp, if_false]
            rw [connectMismatch]
            simp only []
            by_cases hterm : 0 < res.statusCode ∧ (res.statusCode < 500 ∨ 599 < res.statusCode)
            · rw [if_pos hterm]
              rcases expectedStatusOf_cases g with he | he <;>
                · rw [he]
                  norm_num
                  exact ⟨(setResponse_recorded_StatusCode _ res (by simpa using h)).trans (by simp),
                    (setResponse_recorded_ContentLength _ res (by simpa using h)).trans (by simp),
                    (setResponse_recorded_Header _ res (by simpa using h)).trans (by simp)⟩
            · rw [if_neg hterm]
              rcases expectedStatusOf_cases g with he | he <;>
                rw [he] <;> simp

theorem readBody_BytesRead_le (g : GState) (bo : GoBody) (env : Env) :
    g.BytesRead ≤ (readBody g bo env).2.1.BytesRead := by
  rw [readBody]
  rcases bo.read with ⟨⟨bs, berr⟩, bo2⟩
  dsimp only
  cases berr with
  | none =>
    show g.BytesRead ≤ (if 0 < bs.length then _ else _ : GState).BytesRead
    split <;> simp
  | some e =>
    cases e <;>
      · rw [resetBody]
        show g.BytesRead ≤ (if 0 < bs.length then _ else _ : GState).BytesRead
        split <;> simp

theorem Read_keeps_206 (g : GState) (env : Env)
    (h : 0 < g.BytesRead ∧ 0 < g.ContentLength ∧ 0 < g.StatusCode) :
    0 < (Read g env).2.1.BytesRead ∧ 0 < (Read g env).2.1.ContentLength ∧
      0 < (Read g env).2.1.StatusCode := by
  have hbody : ∀ (s : GState) (bo : GoBody) (env2 : Env),
      0 < s.BytesRead → 0 < s.ContentLength → 0 < s.StatusCode →
      0 < (readBody s bo env2).2.1.BytesRead ∧
      0 < (readBody s bo env2).2.1.ContentLength ∧
      0 < (readBody s bo env2).2.1.StatusCode := by
    intro s bo env2 h1 h2 h3
    have hle := readBody_BytesRead_le s bo env2
    have hp := readBody_pres s bo env2
    exact ⟨by omega, hp.2.2.2.2.2.1 ▸ h2, hp.2.2.2.1 ▸ h3⟩
  rw [Read]
  cases hb : g.Body with
  | some bo => exact hbody g bo env h.1 h.2.1 h.2.2
  | none =>
    rcases hc : connect g env with ⟨r, g1, env1⟩
    have hpres := connect_pres g env
    have hrec := connect_recorded g env h.2.2
    rw [hc] at hpres hrec
    have h1 : 0 < g1.BytesRead ∧ 0 < g1.ContentLength ∧ 0 < g1.StatusCode :=
      ⟨hpres.2.1 ▸ h.1, hrec.2.1 ▸ h.2.1, hrec.1 ▸ h.2.2⟩
    cases r with
    | some e =>
      dsimp only
      split <;> exact h1
    | none =>
      dsimp only
      rcases hb2 : ({ g1 with b := g1.b.Reset } : GState).Body with _ | bo
      · exact h1
      · exact hbody { g1 with b := g1.b.Reset } bo env1 h1.1 h1.2.1 h1.2.2

theorem Do_keeps_206 (g : GState) (env : Env)
    (h : 0 < g.BytesRead ∧ 0 < g.ContentLength ∧ 0 < g.StatusCode) :
    0 < (Do g env).2.1.BytesRead ∧ 0 < (Do g env).2.1.ContentLength ∧
      0 < (Do g env).2.1.StatusCode := by
  rw [Do]
  rcases hr : retryGo (withDefaults g).b.cur (withDefaults g) env with ⟨r, g1, env1⟩
  have : 0 < (retryGo (withDefaults g).b.cur (withDefaults g) env).2.1.BytesRead ∧
      0 < (retryGo (withDefaults g).b.cur (withDefaults g) env).2.1.ContentLength ∧
      0 < (retryGo (withDefaults g).b.cur (withDefaults g) env).2.1.StatusCode := by
    refine retryGo_ind
      (fun s => 0 < s.BytesRead ∧ 0 < s.ContentLength ∧ 0 < s.StatusCode) ?_ ?_ _ _ _ h
    · intro s env2 hs
      have hpres := connect_pres s env2
      have hrec := connect_recorded s env2 hs.2.2
      exact ⟨hpres.2.1 ▸ hs.1, hrec.2.1 ▸ hs.2.1, hrec.1 ▸ hs.2.2⟩
    · intro s cur' hs; exact hs
  rw [hr] at this
  exact this

theorem Close_keeps (g : GState) :
    (Close g).BytesRead = g.BytesRead ∧ (Close g).ContentLength = g.ContentLength ∧
      (Close g).StatusCode = g.StatusCode := by
  rw [Close, resetBody]
  split <;> simp

/-- A server for the C3 counterexample: a 200 advertising range support but
*no* `Content-Length`, whose body drops after two bytes, then a faithful
206 resume. -/
def envC3 : Env :=
  [fun _ => .resp
    { statusCode := 200
      header := [("Accept-Ranges", "bytes")]
      body := { steps := [{ bytes := [97, 98], err := some .other }], closed := false } },
   fun _ => .resp
    { statusCode := 206
      header := [("Accept-Ranges", "bytes")]
      body := { steps := [{ bytes := [99], err := none }], closed := false } }]

/-- **C3** (counterexample).  After a first successful response whose
`Content-Length` is missing (recorded as 0), with two bytes already
delivered, the next attempt still expects **200**, not 206 — and a faithful
206 resume response is rejected as a terminal mismatch ("Expected status
code 200, got 206") — refuting both "206 for every attempt after the first
successful response" and the claimed unconditional transition. -/
theorem C3_counterexample :
    (runOps (withDefaults (Getter [0, 0]), envC3) [.doOp, .read]).1.StatusCode = 200 ∧
    (runOps (withDefaults (Getter [0, 0]), envC3) [.doOp, .read]).1.BytesRead = 2 ∧
    expectedStatusOf (runOps (withDefaults (Getter [0, 0]), envC3) [.doOp, .read]).1 = 200 ∧
    (connect (runOps (withDefaults (Getter [0, 0]), envC3) [.doOp, .read]).1
       (runOps (withDefaults (Getter [0, 0]), envC3) [.doOp, .read]).2).1
      = some (.statusErr 200 206) := by
  exact ⟨rfl, rfl, rfl, rfl⟩

/-- **C3** (amended).  An attempt expects 206 exactly when bytes have been
delivered *and* a positive content length is recorded; this condition is
monotone — once it holds (which implies a response has been recorded), it
holds for every state reachable by further `Do`/`Read`/`Close` operations,
so every later attempt expects 206.  The transition need not happen at the
first successful response: with no parseable `Content-Length` or no byte
delivered, the expected status stays 200 (see the counterexample). -/
theorem C3_expected_status_monotone (g : GState)
    (hb : 0 < g.BytesRead) (hc : 0 < g.ContentLength) (hs : 0 < g.StatusCode) :
    expectedStatusOf g = 206 ∧
    ∀ (env : Env) (ops : List Op),
      expectedStatusOf (runOps (g, env) ops).1 = 206 ∧
      0 < (runOps (g, env) ops).1.StatusCode := by
  have hmain : ∀ (ops : List Op) (p : GState × Env),
      0 < p.1.BytesRead ∧ 0 < p.1.ContentLength ∧ 0 < p.1.StatusCode →
      0 < (runOps p ops).1.BytesRead ∧ 0 < (runOps p ops).1.ContentLength ∧
        0 < (runOps p ops).1.StatusCode := by
    intro ops
    induction ops with
    | nil => intro p h; exact h
    | cons op rest ih =>
      intro p h
      rw [runOps, List.foldl_cons]
      refine ih (step p op) ?_
      cases op with
      | doOp => exact Do_keeps_206 p.1 p.2 h
      | read => exact Read_keeps_206 p.1 p.2 h
      | close =>
        rw [step]
        have hcl := Close_keeps p.1
        exact ⟨hcl.1 ▸ h.1, hcl.2.1 ▸ h.2.1, hcl.2.2 ▸ h.2.2⟩
  refine ⟨by rw [expectedStatusOf, if_pos ⟨hb, hc⟩], fun env ops => ?_⟩
  have h := hmain ops (g, env) ⟨hb, hc, hs⟩
  exact ⟨by rw [expectedStatusOf, if_pos ⟨h.1, h.2.1⟩], h.2.2⟩

/-- Witness for C3: the state after downloading the one-byte resource of
`envC6` (one byte delivered, content length 1 recorded, status 200). -/
theorem C3_expected_status_monotone_witness :
    expectedStatusOf (runOps (withDefaults (Getter [0, 0]), envC6) [.doOp, .read]).1 = 206 ∧
    expectedStatusOf
      (runOps ((runOps (withDefaults (Getter [0, 0]), envC6) [.doOp, .read]).1, [])
        [.read]).1 = 206 :=
  ⟨(C3_expected_status_monotone _ (by decide) (by decide) (by decide)).1,
   ((C3_expected_status_monotone _ (by decide) (by decide) (by decide)).2 [] [.read]).1⟩

/-! ## C8: Content-Length parsing -/

/-- The base-10 value of a digit list, accumulated onto `n`. -/
def decValFrom : Nat → List Char → Nat
  | n, [] => n
  | n, c :: cs => decValFrom (n * 10 + (c.toNat - 48)) cs

theorem decValFrom_nil (n : Nat) : decValFrom n [] = n := rfl

theorem decValFrom_cons (n : Nat) (c : Char) (cs : List Char) :
    decValFrom n (c :: cs) = decValFrom (n * 10 + (c.toNat - 48)) cs := rfl

theorem parseUintLoop_nil (n : Nat) : parseUintLoop n [] = .ok n := rfl

theorem parseUintLoop_cons (n : Nat) (c : Char) (cs : List Char) :
    parseUintLoop n (c :: cs) =
      if c.isDigit then
        if n ≥ 1844674407370955162 then .rangeErr 18446744073709551615
        else if n * 10 + (c.toNat - 48) > 18446744073709551615 then
          .rangeErr 18446744073709551615
        else parseUintLoop (n * 10 + (c.toNat - 48)) cs
      else .syntaxErr := rfl

theorem goParseInt_mk (c : Char) (cs : List Char) :
    goParseInt (String.mk (c :: cs)) = goParseSigned c cs := rfl

theorem decValFrom_le (cs : List Char) : ∀ n, n ≤ decValFrom n cs := by
  induction cs with
  | nil => intro n; exact le_refl n
  | cons c cs ih =>
    intro n
    rw [decValFrom_cons]
    exact le_trans (by omega) (ih (n * 10 + (c.toNat - 48)))

theorem parseUintLoop_digits (cs : List Char) :
    ∀ n, (∀ c ∈ cs, c.isDigit) → n ≤ 18446744073709551615 →
    parseUintLoop n cs =
      if decValFrom n cs ≤ 18446744073709551615 then .ok (decValFrom n cs)
      else .rangeErr 18446744073709551615 := by
  induction cs with
  | nil =>
    intro n _ hn
    rw [parseUintLoop_nil, decValFrom_nil, if_pos hn]
  | cons c cs ih =>
    intro n hd hn
    rw [parseUintLoop_cons, if_pos (hd c (List.mem_cons_self c cs))]
    by_cases hcut : n ≥ 1844674407370955162
    · rw [if_pos hcut]
      have hbig : ¬ decValFrom n (c :: cs) ≤ 18446744073709551615 := by
        rw [decValFrom_cons]
        have h2 := decValFrom_le cs (n * 10 + (c.toNat - 48))
        omega
      rw [if_neg hbig]
    · rw [if_neg hcut]
      by_cases hov : n * 10 + (c.toNat - 48) > 18446744073709551615
      · rw [if_pos hov]
        have hbig : ¬ decValFrom n (c :: cs) ≤ 18446744073709551615 := by
          rw [decValFrom_cons]
          have h2 := decValFrom_le cs (n * 10 + (c.toNat - 48))
          omega
        rw [if_neg hbig]
      · rw [if_neg hov, decValFrom_cons]
        exact ih _ (fun x hx => hd x (List.mem_cons_of_mem c hx)) (by omega)

theorem digit_not_dash {c : Char} (hc : c.isDigit) : ¬ c = '-' := by
  intro h; subst h; simp [Char.isDigit] at hc

theorem digit_not_plus {c : Char} (hc : c.isDigit) : ¬ c = '+' := by
  intro h; subst h; simp [Char.isDigit] at hc

theorem goParseIntCore_run (neg : Bool) (c : Char) (cs : List Char) :
    goParseIntCore neg (c :: cs) =
      match parseUintLoop 0 (c :: cs) with
      | .syntaxErr => 0
      | .ok un => clampInt64 neg un
      | .rangeErr un => clampInt64 neg un := rfl

theorem goParseInt_digits (ds : List Char) (hne : ds ≠ [])
    (hd : ∀ c ∈ ds, c.isDigit) :
    goParseInt (String.mk ds) =
      if decValFrom 0 ds ≥ 9223372036854775808 then 9223372036854775807
      else (decValFrom 0 ds : Int) := by
  cases ds with
  | nil => exact absurd rfl hne
  | cons c cs =>
    have hc := hd c (List.mem_cons_self c cs)
    rw [goParseInt_mk, goParseSigned, if_neg (digit_not_dash hc),
      if_neg (digit_not_plus hc), goParseIntCore_run,
      parseUintLoop_digits (c :: cs) 0 hd (by omega)]
    by_cases hle : decValFrom 0 (c :: cs) ≤ 18446744073709551615
    · rw [if_pos hle]
      show clampInt64 false (decValFrom 0 (c :: cs)) = _
      rw [clampInt64]
      by_cases hbig : decValFrom 0 (c :: cs) ≥ 9223372036854775808
      · rw [if_pos (by simpa using hbig), if_pos hbig]
      · rw [if_neg (by simpa using hbig), if_neg hbig]
        simp
    · rw [if_neg hle]
      show clampInt64 false 18446744073709551615 = _
      rw [clampInt64, if_pos (by norm_num), if_pos (by omega)]

theorem goParseInt_neg_digits (ds : List Char) (hne : ds ≠ [])
    (hd : ∀ c ∈ ds, c.isDigit) :
    goParseInt (String.mk ('-' :: ds)) =
      if decValFrom 0 ds > 9223372036854775808 then -9223372036854775808
      else -(decValFrom 0 ds : Int) := by
  cases ds with
  | nil => exact absurd rfl hne
  | cons c cs =>
    rw [goParseInt_mk, goParseSigned, if_pos rfl, goParseIntCore_run,
      parseUintLoop_digits (c :: cs) 0 hd (by omega)]
    by_cases hle : decValFrom 0 (c :: cs) ≤ 18446744073709551615
    · rw [if_pos hle]
      show clampInt64 true (decValFrom 0 (c :: cs)) = _
      rw [clampInt64]
      by_cases hbig : decValFrom 0 (c :: cs) > 9223372036854775808
      · rw [if_neg (by simp), if_pos (by simpa using hbig), if_pos hbig]
      · rw [if_neg (by simp), if_neg (by simpa using hbig), if_pos (by simp), if_neg hbig]
    · rw [if_neg hle]
      show clampInt64 true 18446744073709551615 = _
      rw [clampInt64, if_neg (by simp), if_pos (by norm_num), if_pos (by omega)]

theorem goParseInt_bad_first (c : Char) (cs : List Char)
    (h1 : ¬ c.isDigit) (h2 : c ≠ '-') (h3 : c ≠ '+') :
    goParseInt (String.mk (c :: cs)) = 0 := by
  rw [goParseInt_mk, goParseSigned, if_neg h2, if_neg h3, goParseIntCore_run,
    parseUintLoop_cons, if_neg h1]

/-- **C8** (counterexample).  A `Content-Length` of
`"9300000000000000000"` (greater than `2^63 - 1`) does not fit an `int64`:
`strconv.ParseInt` reports a range error **and the clamped value**, and the
code discards the error, so the recorded content length is
`9223372036854775807` — not `0` as the claim states for values out of the
integer range. -/
theorem C8_counterexample :
    (Do (withDefaults (Getter []))
      [fun _ => .resp
        { statusCode := 200
          header := [("Accept-Ranges", "bytes"), ("Content-Length", "9300000000000000000")]
          body := { steps := [], closed := false } }]).2.1.ContentLength
      = 9223372036854775807 := by
  rfl

/-- **C8** (amended).  The recorded content length is the first recorded
response's `Content-Length` header parsed by `strconv.ParseInt(v, 10, 0)`
with the error discarded: an absent header parses as the empty string,
giving 0; a leading non-digit other than a sign gives 0 (syntax error); an
optionally-signed digit string gives its base-10 value clamped into
`[-2^63, 2^63-1]` — out-of-range values are **clamped**, not treated as 0. -/
theorem C8_content_length (g : GState) (res : Response) (ds : List Char)
    (hne : ds ≠ []) (hd : ∀ c ∈ ds, c.isDigit) :
    ((setResponse g res).ContentLength =
      if 0 < g.StatusCode then g.ContentLength
      else goParseInt (headerGet res.header clenHeader)) ∧
    goParseInt "" = 0 ∧
    headerGet [] clenHeader = "" ∧
    (goParseInt (String.mk ds) =
      if decValFrom 0 ds ≥ 9223372036854775808 then 9223372036854775807
      else (decValFrom 0 ds : Int)) ∧
    (goParseInt (String.mk ('-' :: ds)) =
      if decValFrom 0 ds > 9223372036854775808 then -9223372036854775808
      else -(decValFrom 0 ds : Int)) ∧
    (∀ (c : Char) (cs2 : List Char), ¬ c.isDigit → c ≠ '-' → c ≠ '+' →
      goParseInt (String.mk (c :: cs2)) = 0) := by
  refine ⟨?_, rfl, rfl, goParseInt_digits ds hne hd, goParseInt_neg_digits ds hne hd,
    goParseInt_bad_first⟩
  rw [setResponse]
  split <;> rfl

/-- Witness for C8: the out-of-range digit string of the counterexample. -/
theorem C8_content_length_witness :
    ((setResponse gFresh res404).ContentLength =
      if 0 < gFresh.StatusCode then gFresh.ContentLength
      else goParseInt (headerGet res404.header clenHeader)) ∧
    goParseInt "" = 0 ∧
    headerGet [] clenHeader = "" ∧
    (goParseInt (String.mk ['9', '3', '0', '0', '0', '0', '0', '0', '0', '0', '0', '0', '0', '0', '0', '0', '0', '0', '0']) =
      if decValFrom 0 ['9', '3', '0', '0', '0', '0', '0', '0', '0', '0', '0', '0', '0', '0', '0', '0', '0', '0', '0'] ≥ 9223372036854775808 then 9223372036854775807
      else (decValFrom 0 ['9', '3', '0', '0', '0', '0', '0', '0', '0', '0', '0', '0', '0', '0', '0', '0', '0', '0', '0'] : Int)) ∧
    (goParseInt (String.mk ('-' :: ['9', '3', '0', '0', '0', '0', '0', '0', '0', '0', '0', '0', '0', '0', '0', '0', '0', '0', '0'])) =
      if decValFrom 0 ['9', '3', '0', '0', '0', '0', '0', '0', '0', '0', '0', '0', '0', '0', '0', '0', '0', '0', '0'] > 9223372036854775808 then -9223372036854775808
      else -(decValFrom 0 ['9', '3', '0', '0', '0', '0', '0', '0', '0', '0', '0', '0', '0', '0', '0', '0', '0', '0', '0'] : Int)) ∧
    (∀ (c : Char) (cs2 : List Char), ¬ c.isDigit → c ≠ '-' → c ≠ '+' →
      goParseInt (String.mk (c :: cs2)) = 0) :=
  C8_content_length gFresh res404
    ['9', '3', '0', '0', '0', '0', '0', '0', '0', '0', '0', '0', '0', '0', '0', '0', '0', '0', '0']
    (by decide) (by decide)

/-! ## C10: `Do` on runs with only retryable failures -/

/-- An outcome that the getter treats as retryable and records nothing
from: a transport error, an empty (status 0) response, or a 5xx. -/
def OutcomeRetryable : Outcome → Prop
  | .goErr => True
  | .resp r => r.statusCode = 0 ∨ (500 ≤ r.statusCode ∧ r.statusCode ≤ 599)

/-- Every remaining server step produces only retryable outcomes. -/
def EnvRetryable (env : Env) : Prop := ∀ f ∈ env, ∀ rq, OutcomeRetryable (f rq)

theorem connect_retryable (g : GState) (env : Env) (henv : EnvRetryable env) :
    (connect g env).1 ≠ none ∧
    (connect g env).2.1.StatusCode = g.StatusCode ∧
    (connect g env).2.1.Header = g.Header ∧
    EnvRetryable (connect g env).2.2 := by
  rw [connect]
  split
  · exact ⟨by simp, rfl, rfl, henv⟩
  · cases env with
    | nil => exact ⟨by simp, by simp, by simp, henv⟩
    | cons f env' =>
      dsimp only
      have htail : EnvRetryable env' := fun x hx => henv x (List.mem_cons_of_mem f hx)
      have hout := henv f (List.mem_cons_self f env') (applyRange g).reqRange
      rcases hf : f (applyRange g).reqRange with _ | res
      · exact ⟨by simp, by simp, by simp, htail⟩
      · rw [hf] at hout
        dsimp only
        rcases hout with h0 | h5
        · rw [if_pos h0]
          exact ⟨by simp, by simp, by simp, htail⟩
        · have h0 : ¬ res.statusCode = 0 := by omega
          have hne : ¬ res.statusCode = expectedStatusOf g := by
            rcases expectedStatusOf_cases g with he | he <;> rw [he] <;> omega
          rw [if_neg h0, if_neg hne, connectMismatch]
          simp only []
          have hterm : ¬(0 < res.statusCode ∧ (res.statusCode < 500 ∨ 599 < res.statusCode)) := by
            omega
          rw [if_neg hterm]
          rcases expectedStatusOf_cases g with he | he <;> rw [he] <;>
            exact ⟨by simp, by simp, by simp, htail⟩

theorem retryGo_retryable (waits : List Duration) :
    ∀ (g : GState) (env : Env), EnvRetryable env →
      (retryGo waits g env).1 ≠ none ∧
      (retryGo waits g env).2.1.StatusCode = g.StatusCode ∧
      (retryGo waits g env).2.1.Header = g.Header := by
  induction waits with
  | nil =>
    intro g env henv
    rw [retryGo]
    rcases hc : connect g env with ⟨r, g1, env1⟩
    have h := connect_retryable g env henv
    rw [hc] at h
    cases r with
    | none => exact absurd rfl h.1
    | some e =>
      dsimp only
      split <;> exact ⟨by simp, h.2.1, h.2.2.1⟩
  | cons d rest ih =>
    intro g env henv
    rw [retryGo]
    rcases hc : connect g env with ⟨r, g1, env1⟩
    have h := connect_retryable g env henv
    rw [hc] at h
    cases r with
    | none => exact absurd rfl h.1
    | some e =>
      dsimp only
      split
      · exact ⟨by simp, h.2.1, h.2.2.1⟩
      · split
        · exact ⟨by simp, h.2.1, h.2.2.1⟩
        · have hrest := ih { g1 with b := { g1.b with cur := rest } } env1 h.2.2.2
          exact ⟨hrest.1, hrest.2.1.trans h.2.1, hrest.2.2.trans h.2.2.1⟩

/-- **C10** (confirmed).  `Do` never surfaces a Go error: when every attempt
fails retryably (transport errors, empty responses, 5xx) until the backoff
is exhausted — so no response is ever recorded — `Do` returns status code 0
and nil (empty) headers, discarding the retry loop's final error. -/
theorem C10_do_discards_error (binit : List Duration) (env : Env)
    (henv : ∀ f ∈ env, ∀ rq, OutcomeRetryable (f rq)) :
    (Do (Getter binit) env).1 = (0, []) := by
  rw [Do]
  rcases hr : retryGo (withDefaults (Getter binit)).b.cur (withDefaults (Getter binit)) env
    with ⟨r, g1, env1⟩
  have h := retryGo_retryable (withDefaults (Getter binit)).b.cur
    (withDefaults (Getter binit)) env henv
  rw [hr] at h
  dsimp only
  rw [show g1.StatusCode = 0 from h.2.1, show g1.Header = [] from h.2.2]

/-- Witness for C10: a transport error then a 500, with two backoff waits. -/
theorem C10_do_discards_error_witness :
    (Do (Getter [0, 0]) [fun _ => .goErr, fun _ => .resp res500]).1 = (0, []) :=
  C10_do_discards_error [0, 0] [fun _ => .goErr, fun _ => .resp res500]
    (by
      intro f hf rq
      rcases List.mem_cons.mp hf with rfl | hf2
      · exact trivial
      · rcases List.mem_cons.mp hf2 with rfl | hf3
        · exact Or.inr (by constructor <;> decide)
        · exact absurd hf3 (List.not_mem_nil f))

/-! ## C1: reduction lemmas and invariant helpers -/

theorem expectedStatusOf_of_pos {g : GState}
    (h : 0 < g.BytesRead ∧ 0 < g.ContentLength) : expectedStatusOf g = 206 := by
  rw [expectedStatusOf, if_pos h]

theorem expectedStatusOf_of_neg {g : GState}
    (h : ¬(0 < g.BytesRead ∧ 0 < g.ContentLength)) : expectedStatusOf g = 200 := by
  rw [expectedStatusOf, if_neg h]

theorem applyRange_of_pos {g : GState}
    (h : 0 < g.BytesRead ∧ 0 < g.ContentLength) :
    applyRange g = { g with reqRange := some (g.BytesRead, g.ContentLength - 1) } := by
  rw [applyRange, if_pos h]

theorem applyRange_of_neg {g : GState}
    (h : ¬(0 < g.BytesRead ∧ 0 < g.ContentLength)) : applyRange g = g := by
  rw [applyRange, if_neg h]

theorem connect_nil_eq (g : GState) (hdone : g.b.IsDone = false) :
    connect g [] = (some .transport, recordAttempt (applyRange g) none, []) := by
  rw [connect]
  simp only [hdone, Bool.false_eq_true, if_false]

theorem connect_goErr_eq (g : GState) (f : ServerStep) (env' : Env)
    (hdone : g.b.IsDone = false) (hf : f (applyRange g).reqRange = .goErr) :
    connect g (f :: env') = (some .transport, recordAttempt (applyRange g) none, env') := by
  rw [connect]
  simp only [hdone, Bool.false_eq_true, if_false]
  rw [hf]

theorem connect_status0_eq (g : GState) (f : ServerStep) (env' : Env) (res : Response)
    (hdone : g.b.IsDone = false) (hf : f (applyRange g).reqRange = .resp res)
    (h0 : res.statusCode = 0) :
    connect g (f :: env') =
      (some .emptyResponse, recordAttempt (applyRange g) (some res), env') := by
  rw [connect]
  simp only [hdone, Bool.false_eq_true, if_false]
  rw [hf]
  simp only []
  rw [if_pos h0]

theorem connect_success_eq (g : GState) (f : ServerStep) (env' : Env) (res : Response)
    (hdone : g.b.IsDone = false) (hf : f (applyRange g).reqRange = .resp res)
    (h0 : res.statusCode ≠ 0) (hexp : res.statusCode = expectedStatusOf g) :
    connect g (f :: env') =
      (none,
        setResponse { recordAttempt (applyRange g) (some res) with Body := some res.body } res,
        env') := by
  rw [connect]
  simp only [hdone, Bool.false_eq_true, if_false]
  rw [hf]
  simp only []
  rw [if_neg h0, if_pos hexp]

theorem setResponse_full (s : GState) (res : Response)
    (hzero : s.StatusCode = 0)
    (hacc : headerGet res.header acceptHeader = acceptValue) :
    setResponse s res =
      { s with StatusCode := res.statusCode, Header := res.header
               ContentLength := goParseInt (headerGet res.header clenHeader) } := by
  rw [setResponse, if_neg (by rw [hzero]; omega)]
  simp only [hacc, if_true]

/-- `Inv` cares only about `b.IsDone`, `BytesRead`, `hasher`, `StatusCode`,
`ContentLength`, `Body` and `reqRange`; states agreeing there share it. -/
theorem Inv_congr (content : List Nat) (s t : GState)
    (h1 : t.b.IsDone = s.b.IsDone) (h2 : t.BytesRead = s.BytesRead)
    (h3 : t.hasher = s.hasher) (h4 : t.StatusCode = s.StatusCode)
    (h5 : t.ContentLength = s.ContentLength) (h6 : t.Body = s.Body)
    (h7 : t.reqRange = s.reqRange) (h : Inv content s) : Inv content t := by
  obtain ⟨hdone, k, hBR, hk, hH, hrec, hrr⟩ := h
  refine ⟨h1.trans hdone, k, h2.trans hBR, hk, h3.trans hH, ?_, ?_⟩
  · rw [h4, h5, h6]; exact hrec
  · rw [h7, h2, h5]; exact hrr

theorem Inv_recordAttempt (content : List Nat) (s : GState) (o : Option Response)
    (h : Inv content s) : Inv content (recordAttempt s o) :=
  Inv_congr content s _ (by simp) (by simp) (by simp) (by simp) (by simp) (by simp)
    (by simp) h

theorem Inv_applyRange (content : List Nat) (g : GState)
    (h : Inv content g) : Inv content (applyRange g) := by
  by_cases hc : 0 < g.BytesRead ∧ 0 < g.ContentLength
  · rw [applyRange_of_pos hc]
    obtain ⟨hdone, k, hBR, hk, hH, hrec, hrr⟩ := h
    exact ⟨hdone, k, hBR, hk, hH, hrec, Or.inr hc⟩
  · rw [applyRange_of_neg hc]
    exact h

theorem Inv_init (content : List Nat) (binit : List Duration) :
    Inv content (withDefaults (Getter binit)) := by
  refine ⟨rfl, 0, rfl, by omega, rfl, Or.inl ⟨rfl, rfl, rfl, trivial⟩, Or.inl rfl⟩

theorem stepsServe_nil (data : List Nat) : stepsServe data [] = data.isEmpty := rfl

theorem stepsServe_cons_none (data bs : List Nat) (rest : List ReadStep) :
    stepsServe data ({ bytes := bs, err := none } :: rest) =
      ((data.take bs.length == bs) && stepsServe (data.drop bs.length) rest) := rfl

theorem stepsServe_cons_eof (data bs : List Nat) (rest : List ReadStep) :
    stepsServe data ({ bytes := bs, err := some .eof } :: rest) =
      ((data.take bs.length == bs) && (data.drop bs.length).isEmpty) := rfl

theorem stepsServe_cons_other (data bs : List Nat) (rest : List ReadStep) :
    stepsServe data ({ bytes := bs, err := some .other } :: rest) =
      ((data.take bs.length == bs) && true) := rfl

/-- A successful attempt against a well-behaved server preserves the
download invariant. -/
theorem Inv_success (content : List Nat) (g : GState) (res : Response)
    (hg : Inv content g)
    (_h0 : res.statusCode ≠ 0)
    (hexp : res.statusCode = expectedStatusOf g)
    (hfull : ¬(0 < g.BytesRead ∧ 0 < g.ContentLength) →
      FullOutcomeOK content (.resp res))
    (hrange : 0 < g.BytesRead ∧ 0 < g.ContentLength →
      RangeOutcomeOK content g.BytesRead (.resp res)) :
    Inv content
      (setResponse { recordAttempt (applyRange g) (some res) with Body := some res.body }
        res) := by
  obtain ⟨hdone, k, hBR, hk, hH, hrec, hrr⟩ := hg
  by_cases hc : 0 < g.BytesRead ∧ 0 < g.ContentLength
  · -- resume attempt: expected 206, the response serves `content.drop k`
    have hexp206 : res.statusCode = 206 := hexp.trans (expectedStatusOf_of_pos hc)
    have hsr : ServesRange content g.BytesRead res := by
      rcases hrange hc with h | h
      · rcases h with h | h
        · exact absurd (hexp206 ▸ h) (by norm_num)
        · exact absurd (hexp206 ▸ h) (by norm_num)
      · exact h
    have hst : g.StatusCode = 200 ∧ g.ContentLength = (content.length : Int) := by
      rcases hrec with ⟨_, hcl0, _⟩ | ⟨h1, h2, _⟩
      · exact absurd hc (by rw [hcl0]; omega)
      · exact ⟨h1, h2⟩
    have heq : setResponse
        { recordAttempt (applyRange g) (some res) with Body := some res.body } res =
        { recordAttempt (applyRange g) (some res) with Body := some res.body } := by
      refine setResponse_recorded _ res ?_
      show 0 < (recordAttempt (applyRange g) (some res)).StatusCode
      simp only [recordAttempt_StatusCode, applyRange_StatusCode]
      rw [hst.1]; norm_num
    rw [heq]
    refine ⟨by simp [hdone], k, by simp [hBR], hk, by simp [hH], ?_, ?_⟩
    · refine Or.inr ⟨by simp [hst.1], by simp [hst.2], ?_⟩
      show BodyOK content k (some res.body)
      refine Or.inr ?_
      have h3 := hsr.2.2
      rw [hBR] at h3
      simpa using h3
    · refine Or.inr ⟨?_, ?_⟩ <;> simp [hBR, hst.2]
      · have h5 := hc.1; rw [hBR] at h5; omega
      · have h5 := hc.2; rw [hst.2] at h5; omega
  · -- first contact (or re-fetch from offset 0): expected 200
    have hexp200 : res.statusCode = 200 := hexp.trans (expectedStatusOf_of_neg hc)
    have hsf : ServesFull content res := by
      rcases hfull hc with h | h
      · rcases h with h | h
        · exact absurd (hexp200 ▸ h) (by norm_num)
        · exact absurd (hexp200 ▸ h) (by norm_num)
      · exact h
    have hk0 : k = 0 := by
      rcases hrec with ⟨_, _, hk0, _⟩ | ⟨_, h2, _⟩
      · exact hk0
      · rw [h2, hBR] at hc
        push_neg at hc
        omega
    have hrrnone : g.reqRange = none := by
      rcases hrr with h | h
      · exact h
      · exact absurd h hc
    subst hk0
    rcases hrec with ⟨hst0, hcl0, _, _⟩ | ⟨hst200, hcl, _⟩
    · -- nothing recorded yet: this response is recorded
      have heq := setResponse_full
        { recordAttempt (applyRange g) (some res) with Body := some res.body } res
        (by
          show (recordAttempt (applyRange g) (some res)).StatusCode = 0
          simp only [recordAttempt_StatusCode, applyRange_StatusCode]
          exact hst0)
        hsf.2.1
      rw [heq]
      refine ⟨?_, 0, ?_, by omega, ?_, ?_, ?_⟩
      · simp [hdone]
      · simp [hBR]
      · simp [hH]
      · refine Or.inr ⟨by simpa using hexp200, by simpa using hsf.2.2.1, ?_⟩
        show BodyOK content 0 (some res.body)
        exact Or.inr (by simpa [List.drop_zero] using hsf.2.2.2.2)
      · exact Or.inl (by simp [applyRange_of_neg hc, hrrnone])
    · -- already recorded (zero-length resource or zero bytes delivered)
      have heq : setResponse
          { recordAttempt (applyRange g) (some res) with Body := some res.body } res =
          { recordAttempt (applyRange g) (some res) with Body := some res.body } := by
        refine setResponse_recorded _ res ?_
        show 0 < (recordAttempt (applyRange g) (some res)).StatusCode
        simp only [recordAttempt_StatusCode, applyRange_StatusCode]
        rw [hst200]; norm_num
      rw [heq]
      refine ⟨by simp [hdone], 0, by simp [hBR], by omega, by simp [hH], ?_, ?_⟩
      · refine Or.inr ⟨by simp [hst200], by simp [hcl], ?_⟩
        show BodyOK content 0 (some res.body)
        exact Or.inr (by simpa [List.drop_zero] using hsf.2.2.2.2)
      · exact Or.inl (by simp [applyRange_of_neg hc, hrrnone])

/-- A failed (non-matching) attempt against a well-behaved server is a 5xx
and preserves the download invariant. -/
theorem Inv_mismatch (content : List Nat) (g : GState) (res : Response) (env' : Env)
    (hg : Inv content g)
    (h0 : res.statusCode ≠ 0)
    (hexp : res.statusCode ≠ expectedStatusOf g)
    (hfull : ¬(0 < g.BytesRead ∧ 0 < g.ContentLength) →
      FullOutcomeOK content (.resp res))
    (hrange : 0 < g.BytesRead ∧ 0 < g.ContentLength →
      RangeOutcomeOK content g.BytesRead (.resp res)) :
    Inv content (connectMismatch
      { recordAttempt (applyRange g) (some res) with Body := some res.body }
      res (expectedStatusOf g) env').2.1 ∧
    (connectMismatch
      { recordAttempt (applyRange g) (some res) with Body := some res.body }
      res (expectedStatusOf g) env').1
        = some (.statusErr (expectedStatusOf g) res.statusCode) ∧
    (connectMismatch
      { recordAttempt (applyRange g) (some res) with Body := some res.body }
      res (expectedStatusOf g) env').2.2 = env' := by
  obtain ⟨hdone, k, hBR, hk, hH, hrec, hrr⟩ := hg
  have h5 : 500 ≤ res.statusCode ∧ res.statusCode ≤ 599 := by
    by_cases hc : 0 < g.BytesRead ∧ 0 < g.ContentLength
    · rcases hrange hc with h | h
      · rcases h with h | h
        · exact absurd h h0
        · exact h
      · exact absurd (h.1.trans (expectedStatusOf_of_pos hc).symm) hexp
    · rcases hfull hc with h | h
      · rcases h with h | h
        · exact absurd h h0
        · exact h
      · exact absurd (h.1.trans (expectedStatusOf_of_neg hc).symm) hexp
  have hterm : ¬(0 < res.statusCode ∧ (res.statusCode < 500 ∨ 599 < res.statusCode)) := by
    omega
  rw [connectMismatch]
  simp only []
  rw [if_neg hterm]
  by_cases hc : 0 < g.BytesRead ∧ 0 < g.ContentLength
  · rw [expectedStatusOf_of_pos hc]
    rw [if_pos rfl, if_pos rfl]
    refine ⟨⟨by simp [hdone], k, by simp [hBR], hk, by simp [hH], ?_, ?_⟩, rfl, rfl⟩
    · rcases hrec with ⟨h1, h2, h3, _⟩ | ⟨h1, h2, _⟩
      · exact Or.inl ⟨by simpa using h1, by simpa using h2, h3, trivial⟩
      · exact Or.inr ⟨by simpa using h1, by simpa using h2, trivial⟩
    · refine Or.inr ⟨?_, ?_⟩ <;> rw [applyRange_of_pos hc] <;> simp
      · have h6 := hc.1; rw [hBR] at h6; simpa [hBR] using h6
      · rcases hrec with ⟨_, h2, _⟩ | ⟨_, h2, _⟩
        · exact absurd hc (by rw [h2]; omega)
        · have h6 := hc.2; exact h6
  · rw [expectedStatusOf_of_neg hc]
    rw [if_neg (by norm_num), if_neg (by norm_num)]
    refine ⟨⟨by simp [hdone], k, by simp [hBR], hk, by simp [hH], ?_, ?_⟩, rfl, rfl⟩
    · rcases hrec with ⟨h1, h2, h3, _⟩ | ⟨h1, h2, _⟩
      · refine Or.inl ⟨by simpa using h1, by simpa using h2, h3, ?_⟩
        show BodyClosed (some ((res.body).drain.close))
        rfl
      · refine Or.inr ⟨by simpa using h1, by simpa using h2, ?_⟩
        show BodyOK content k (some ((res.body).drain.close))
        exact Or.inl rfl
    · rw [applyRange_of_neg hc]
      simpa using hrr

/-- One `connect` attempt against a well-behaved server preserves the
download invariant, consumes at most the head server step, leaves the
hash and byte count untouched, and never fails with `io.EOF`. -/
theorem connect_C1 (content : List Nat) (g : GState) (env : Env)
    (hg : Inv content g) (henv : EnvOK content env) :
    Inv content (connect g env).2.1 ∧
    EnvOK content (connect g env).2.2 ∧
    (connect g env).2.1.hasher = g.hasher ∧
    (connect g env).2.1.BytesRead = g.BytesRead ∧
    (connect g env).1 ≠ some .eof := by
  have hdone : g.b.IsDone = false := hg.1
  cases env with
  | nil =>
    rw [connect_nil_eq g hdone]
    exact ⟨Inv_recordAttempt _ _ _ (Inv_applyRange _ _ hg),
      fun x hx => absurd hx (List.not_mem_nil x), by simp, by simp, by simp⟩
  | cons f env' =>
    have hstep : ServerOK content f := henv f (List.mem_cons_self f env')
    have htail : EnvOK content env' := fun x hx => henv x (List.mem_cons_of_mem f hx)
    rcases hf : f (applyRange g).reqRange with _ | res
    · rw [connect_goErr_eq g f env' hdone hf]
      exact ⟨Inv_recordAttempt _ _ _ (Inv_applyRange _ _ hg), htail, by simp, by simp, by simp⟩
    · have hfull : ¬(0 < g.BytesRead ∧ 0 < g.ContentLength) →
          FullOutcomeOK content (.resp res) := by
        intro hc
        have hnone : (applyRange g).reqRange = none := by
          rw [applyRange_of_neg hc]
          rcases hg.2 with ⟨_, _, _, _, _, hrr⟩
          rcases hrr with h | h
          · exact h
          · exact absurd h hc
        rw [hnone] at hf
        have h1 := hstep.1
        rw [hf] at h1
        exact h1
      have hrange : 0 < g.BytesRead ∧ 0 < g.ContentLength →
          RangeOutcomeOK content g.BytesRead (.resp res) := by
        intro hc
        have hsome : (applyRange g).reqRange = some (g.BytesRead, g.ContentLength - 1) := by
          rw [applyRange_of_pos hc]
        rw [hsome] at hf
        have h2 := hstep.2 (g.BytesRead, g.ContentLength - 1)
        rw [hf] at h2
        exact h2
      by_cases h0 : res.statusCode = 0
      · rw [connect_status0_eq g f env' res hdone hf h0]
        exact ⟨Inv_recordAttempt _ _ _ (Inv_applyRange _ _ hg), htail, by simp, by simp,
          by simp⟩
      · by_cases hexp : res.statusCode = expectedStatusOf g
        · rw [connect_success_eq g f env' res hdone hf h0 hexp]
          refine ⟨Inv_success content g res ⟨hdone, hg.2⟩ h0 hexp hfull hrange, htail,
            by simp, by simp, by simp⟩
        · rw [connect_mismatch_eq g f env' res hdone hf h0 hexp]
          have h := Inv_mismatch content g res env' ⟨hdone, hg.2⟩ h0 hexp hfull hrange
          refine ⟨h.1, by rw [h.2.2]; exact htail, ?_, ?_, by rw [h.2.1]; simp⟩
          · have hp := connectMismatch_pres
              { recordAttempt (applyRange g) (some res) with Body := some res.body } res
              (expectedStatusOf g) env'
            exact hp.1.trans (by simp)
          · have hp := connectMismatch_pres
              { recordAttempt (applyRange g) (some res) with Body := some res.body } res
              (expectedStatusOf g) env'
            exact hp.2.1.trans (by simp)

/-- Reading from the current body preserves the invariant, appends exactly
the returned bytes to the hash, and reports `io.EOF` only once the whole
resource has been delivered. -/
theorem readBody_C1 (content : List Nat) (g : GState) (bo : GoBody) (env : Env)
    (hg : Inv content g) (hb : g.Body = some bo) :
    Inv content (readBody g bo env).2.1 ∧
    (readBody g bo env).2.2 = env ∧
    (readBody g bo env).2.1.hasher
      = g.hasher.map (fun h => h ++ (readBody g bo env).1.1) ∧
    ((readBody g bo env).1.2 = some .eof →
      (readBody g bo env).2.1.hasher = some content ∧
      (readBody g bo env).2.1.BytesRead = (content.length : Int)) := by
  obtain ⟨hdone, k, hBR, hk, hH, hrec, hrr⟩ := hg
  by_cases hclosed : bo.closed = true
  · -- a closed body: the read errors at once, the body is dropped
    have hres : readBody g bo env = (([], none), { g with Body := none }, env) := by
      rw [readBody, GoBody.read, if_pos hclosed]
      rfl
    rw [hres]
    refine ⟨⟨hdone, k, hBR, hk, hH, ?_, hrr⟩, rfl, by simp, by intro h; simp at h⟩
    rcases hrec with ⟨h1, h2, h3, _⟩ | ⟨h1, h2, _⟩
    · exact Or.inl ⟨h1, h2, h3, trivial⟩
    · exact Or.inr ⟨h1, h2, trivial⟩
  · -- an open body: by the invariant it serves `content.drop k`
    have hserve : stepsServe (content.drop k) bo.steps = true := by
      rcases hrec with ⟨_, _, _, hcl⟩ | ⟨_, _, hcl⟩
      · rw [hb] at hcl
        exact absurd hcl hclosed
      · rw [hb] at hcl
        rcases hcl with h | h
        · exact absurd h hclosed
        · exact h
    have hrec2 : g.StatusCode = 200 ∧ g.ContentLength = (content.length : Int) := by
      rcases hrec with ⟨_, _, _, hcl⟩ | ⟨h1, h2, _⟩
      · rw [hb] at hcl
        exact absurd hcl hclosed
      · exact ⟨h1, h2⟩
    have hclosedf : bo.closed = false := by
      cases h : bo.closed
      · rfl
      · exact absurd h hclosed
    cases hsteps : bo.steps with
    | nil =>
      -- the body is exhausted: EOF, and the invariant forces k = length
      have hkl : k = content.length := by
        rw [hsteps, stepsServe_nil] at hserve
        have h1 := List.isEmpty_iff.mp hserve
        have h2 := List.drop_eq_nil_iff.mp h1
        omega
      have hres : readBody g bo env = (([], some .eof), { g with Body := none }, env) := by
        rw [readBody, GoBody.read, hclosedf, hsteps]
        rfl
      rw [hres]
      refine ⟨⟨hdone, k, hBR, hk, hH, ?_, hrr⟩, rfl, by simp, fun _ => ?_⟩
      · exact Or.inr ⟨hrec2.1, hrec2.2, trivial⟩
      · subst hkl
        exact ⟨by simpa [List.take_length] using hH, by simpa using hBR⟩
    | cons s rest =>
      rcases s with ⟨bs, berr⟩
      have hparts : (content.drop k).take bs.length = bs ∧
          (berr = none → stepsServe ((content.drop k).drop bs.length) rest = true) ∧
          (berr = some .eof → ((content.drop k).drop bs.length).isEmpty = true) := by
        rw [hsteps] at hserve
        cases berr with
        | none =>
          rw [stepsServe_cons_none, Bool.and_eq_true] at hserve
          exact ⟨beq_iff_eq.mp hserve.1, fun _ => hserve.2, fun h => by simp at h⟩
        | some e =>
          cases e with
          | eof =>
            rw [stepsServe_cons_eof, Bool.and_eq_true] at hserve
            exact ⟨beq_iff_eq.mp hserve.1, fun h => by simp at h, fun _ => hserve.2⟩
          | other =>
            rw [stepsServe_cons_other, Bool.and_eq_true] at hserve
            exact ⟨beq_iff_eq.mp hserve.1, fun h => by simp at h, fun h => by simp at h⟩
      have hlen : bs.length ≤ content.length - k := by
        have h2 := congrArg List.length hparts.1
        rw [List.length_take, List.length_drop] at h2
        omega
      have htake : content.take (k + bs.length) = content.take k ++ bs := by
        rw [List.take_add, hparts.1]
      have hdrop : (content.drop k).drop bs.length = content.drop (k + bs.length) := by
        rw [List.drop_drop, Nat.add_comm]
      have hhash : g.hasher.map (fun h => h ++ bs) = some (content.take (k + bs.length)) := by
        rw [hH]
        simp [htake]
      by_cases hbs : 0 < bs.length
      · cases berr with
        | none =>
          have hres : readBody g bo env =
              ((bs, none),
               { g with Body := some { bo with steps := rest }
                        BytesRead := g.BytesRead + (bs.length : Int)
                        hasher := g.hasher.map (fun x => x ++ bs) }, env) := by
            simp only [readBody, GoBody.read, hclosedf, Bool.false_eq_true, if_false,
              hsteps, hbs, if_true, resetBody]
          rw [hres]
          refine ⟨⟨hdone, k + bs.length, ?_, by omega, by simpa using hhash, ?_, ?_⟩,
            rfl, rfl, by intro h; simp at h⟩
          · show g.BytesRead + (bs.length : Int) = ((k + bs.length : Nat) : Int)
            rw [hBR]; push_cast; ring
          · refine Or.inr ⟨hrec2.1, hrec2.2, Or.inr ?_⟩
            show stepsServe (content.drop (k + bs.length)) rest = true
            rw [← hdrop]
            exact hparts.2.1 rfl
          · rcases hrr with h | h
            · exact Or.inl h
            · refine Or.inr ⟨?_, h.2⟩
              show (0 : Int) < g.BytesRead + (bs.length : Int)
              have h6 := h.1
              omega
        | some e =>
          have hstate : ∀ q : Option RErr,
              Inv content { g with Body := none
                                   BytesRead := g.BytesRead + (bs.length : Int)
                                   hasher := g.hasher.map (fun x => x ++ bs) } := by
            intro _
            refine ⟨hdone, k + bs.length, ?_, by omega, by simpa using hhash, ?_, ?_⟩
            · show g.BytesRead + (bs.length : Int) = ((k + bs.length : Nat) : Int)
              rw [hBR]; push_cast; ring
            · exact Or.inr ⟨hrec2.1, hrec2.2, trivial⟩
            · rcases hrr with h | h
              · exact Or.inl h
              · refine Or.inr ⟨?_, h.2⟩
                show (0 : Int) < g.BytesRead + (bs.length : Int)
                have h6 := h.1
                omega
          cases e with
          | other =>
            have hres : readBody g bo env =
                ((bs, none),
                 { g with Body := none
                          BytesRead := g.BytesRead + (bs.length : Int)
                          hasher := g.hasher.map (fun x => x ++ bs) }, env) := by
              simp only [readBody, GoBody.read, hclosedf, Bool.false_eq_true, if_false,
                hsteps, hbs, if_true, resetBody]
            rw [hres]
            exact ⟨hstate none, rfl, rfl, by intro h; simp at h⟩
          | eof =>
            have hfin : k + bs.length = content.length := by
              have h2 := hparts.2.2 rfl
              rw [hdrop] at h2
              have h3 := List.drop_eq_nil_iff.mp (List.isEmpty_iff.mp h2)
              omega
            have hres : readBody g bo env =
                ((bs, some .eof),
                 { g with Body := none
                          BytesRead := g.BytesRead + (bs.length : Int)
                          hasher := g.hasher.map (fun x => x ++ bs) }, env) := by
              simp only [readBody, GoBody.read, hclosedf, Bool.false_eq_true, if_false,
                hsteps, hbs, if_true, resetBody]
            rw [hres]
            refine ⟨hstate (some .eof), rfl, rfl, fun _ => ⟨?_, ?_⟩⟩
            · show g.hasher.map (fun x => x ++ bs) = some content
              rw [hhash, hfin, List.take_length]
            · show g.BytesRead + (bs.length : Int) = (content.length : Int)
              rw [hBR]
              omega
      · -- a zero-byte read result
        have hbs0 : bs = [] := List.length_eq_zero.mp (by omega)
        subst hbs0
        have hstate0 : Inv content { g with Body := none } := by
          refine ⟨hdone, k, hBR, hk, hH, ?_, hrr⟩
          exact Or.inr ⟨hrec2.1, hrec2.2, trivial⟩
        cases berr with
        | none =>
          have hres : readBody g bo env =
              (([], none), { g with Body := some { bo with steps := rest } }, env) := by
            rw [readBody, GoBody.read, hclosedf, hsteps]
            rfl
          rw [hres]
          refine ⟨⟨hdone, k, hBR, hk, hH, ?_, hrr⟩, rfl, by simp, by intro h; simp at h⟩
          refine Or.inr ⟨hrec2.1, hrec2.2, Or.inr ?_⟩
          show stepsServe (content.drop k) rest = true
          have h2 := hparts.2.1 rfl
          simpa using h2
        | some e =>
          cases e with
          | other =>
            have hres : readBody g bo env =
                (([], none), { g with Body := none }, env) := by
              rw [readBody, GoBody.read, hclosedf, hsteps]
              rfl
            rw [hres]
            exact ⟨hstate0, rfl, by simp, by intro h; simp at h⟩
          | eof =>
            have hfin : k = content.length := by
              have h2 := hparts.2.2 rfl
              have h3 := List.drop_eq_nil_iff.mp (List.isEmpty_iff.mp h2)
              simp at h3
              omega
            have hres : readBody g bo env =
                (([], some .eof), { g with Body := none }, env) := by
              rw [readBody, GoBody.read, hclosedf, hsteps]
              rfl
            rw [hres]
            refine ⟨hstate0, rfl, by simp, fun _ => ?_⟩
            subst hfin
            exact ⟨by simpa [List.take_length] using hH, by simpa using hBR⟩

theorem NextBackOff_IsDone (b : QuittableBackOff) :
    (b.NextBackOff).2.IsDone = b.IsDone := by
  rw [QuittableBackOff.NextBackOff]
  split
  · rfl
  · split <;> rfl

/-- One `Read` call against a well-behaved server preserves the invariant
and appends exactly the returned bytes to the hash; `io.EOF` is returned
only with the whole resource delivered. -/
theorem Read_C1 (content : List Nat) (g : GState) (env : Env)
    (hg : Inv content g) (henv : EnvOK content env) :
    Inv content (Read g env).2.1 ∧
    EnvOK content (Read g env).2.2 ∧
    (Read g env).2.1.hasher = g.hasher.map (fun h => h ++ (Read g env).1.1) ∧
    ((Read g env).1.2 = some .eof →
      (Read g env).2.1.hasher = some content ∧
      (Read g env).2.1.BytesRead = (content.length : Int)) := by
  cases hb : g.Body with
  | some bo =>
    have hred : Read g env = readBody g bo env := by rw [Read, hb]
    rw [hred]
    have h := readBody_C1 content g bo env hg hb
    exact ⟨h.1, by rw [h.2.1]; exact henv, h.2.2.1, h.2.2.2⟩
  | none =>
    rcases hc : connect g env with ⟨r, g1, env1⟩
    have hcc := connect_C1 content g env hg henv
    rw [hc] at hcc
    dsimp only at hcc
    obtain ⟨hInv1, hEnv1, hHash1, hBR1, hNe⟩ := hcc
    cases r with
    | some e =>
      rcases hnb : g1.b.NextBackOff with ⟨nxt, b2⟩
      have hIs : b2.IsDone = g1.b.IsDone := by
        have h2 := NextBackOff_IsDone g1.b
        rw [hnb] at h2
        exact h2
      have hInv2 : Inv content { g1 with b := b2, next := nxt } := by
        refine Inv_congr content g1 _ ?_ rfl rfl rfl rfl rfl rfl hInv1
        exact hIs
      have hNe2 : ¬ (e = GoError.eof) := by simpa using hNe
      by_cases hstop : nxt = backoffStop
      · have hred : Read g env = (([], some e), { g1 with b := b2, next := nxt }, env1) := by
          rw [Read, hb, hc]
          dsimp only
          rw [hnb]
          dsimp only
          rw [if_pos hstop]
        rw [hred]
        exact ⟨hInv2, hEnv1, by simp [hHash1], fun h2 => absurd (by simpa using h2) hNe2⟩
      · have hred : Read g env = (([], none), { g1 with b := b2, next := nxt }, env1) := by
          rw [Read, hb, hc]
          dsimp only
          rw [hnb]
          dsimp only
          rw [if_neg hstop]
        rw [hred]
        exact ⟨hInv2, hEnv1, by simp [hHash1], by intro h2; simp at h2⟩
    | none =>
      have hInv2 : Inv content { g1 with b := g1.b.Reset } := by
        refine Inv_congr content g1 _ ?_ rfl rfl rfl rfl rfl rfl hInv1
        rw [QuittableBackOff.Reset]
        exact hInv1.1.symm
      cases hb2 : ({ g1 with b := g1.b.Reset } : GState).Body with
      | none =>
        have hred : Read g env = (([], none), { g1 with b := g1.b.Reset }, env1) := by
          rw [Read, hb, hc]
          dsimp only
          rw [show ({ g1 with b := g1.b.Reset } : GState).Body = none from hb2]
        rw [hred]
        exact ⟨hInv2, hEnv1, by simp [hHash1], by intro h2; simp at h2⟩
      | some bo =>
        have hred : Read g env = readBody { g1 with b := g1.b.Reset } bo env1 := by
          rw [Read, hb, hc]
          dsimp only
          rw [show ({ g1 with b := g1.b.Reset } : GState).Body = some bo from hb2]
        rw [hred]
        have h := readBody_C1 content { g1 with b := g1.b.Reset } bo env1 hInv2 hb2
        refine ⟨h.1, by rw [h.2.1]; exact hEnv1, ?_, h.2.2.2⟩
        rw [h.2.2.1]
        show g1.hasher.map _ = g.hasher.map _
        rw [hHash1]

/-- The retry loop of `Do` preserves the invariant against a well-behaved
server and never reads a byte. -/
theorem retryGo_C1 (content : List Nat) (waits : List Duration) :
    ∀ (g : GState) (env : Env), Inv content g → EnvOK content env →
      Inv content (retryGo waits g env).2.1 ∧
      EnvOK content (retryGo waits g env).2.2 ∧
      (retryGo waits g env).2.1.hasher = g.hasher := by
  induction waits with
  | nil =>
    intro g env hg henv
    rw [retryGo]
    rcases hc : connect g env with ⟨r, g1, env1⟩
    have hcc := connect_C1 content g env hg henv
    rw [hc] at hcc
    cases r with
    | none => exact ⟨hcc.1, hcc.2.1, hcc.2.2.1⟩
    | some e =>
      dsimp only
      split <;> exact ⟨hcc.1, hcc.2.1, hcc.2.2.1⟩
  | cons d rest ih =>
    intro g env hg henv
    rw [retryGo]
    rcases hc : connect g env with ⟨r, g1, env1⟩
    have hcc := connect_C1 content g env hg henv
    rw [hc] at hcc
    cases r with
    | none => exact ⟨hcc.1, hcc.2.1, hcc.2.2.1⟩
    | some e =>
      dsimp only
      split
      · exact ⟨hcc.1, hcc.2.1, hcc.2.2.1⟩
      · have hInv2 : Inv content { g1 with b := { g1.b with cur := rest } } := by
          refine Inv_congr content g1 _ rfl rfl rfl rfl rfl rfl rfl hcc.1
        split
        · exact ⟨hInv2, hcc.2.1, hcc.2.2.1⟩
        · have h := ih { g1 with b := { g1.b with cur := rest } } env1 hInv2 hcc.2.1
          exact ⟨h.1, h.2.1, h.2.2.trans hcc.2.2.1⟩

/-- `Do` preserves the invariant and the hash against a well-behaved
server. -/
theorem Do_C1 (content : List Nat) (g : GState) (env : Env)
    (hg : Inv content g) (henv : EnvOK content env) :
    Inv content (Do g env).2.1 ∧
    EnvOK content (Do g env).2.2 ∧
    (Do g env).2.1.hasher = g.hasher := by
  have hwd : withDefaults g = g := by
    obtain ⟨_, k, _, _, hH, _, _⟩ := hg
    rw [withDefaults, hH]
    show { g with hasher := some (List.take k content) } = g
    rw [← hH]
  rw [Do, hwd]
  rcases hr : retryGo g.b.cur g env with ⟨r, g1, env1⟩
  have h := retryGo_C1 content g.b.cur g env hg henv
  rw [hr] at h
  exact h

theorem copyLoop_zero (g : GState) (env : Env) :
    copyLoop 0 g env = ([], .fuelOut, g, env) := rfl

/-- A successful `io.Copy` loop against a well-behaved server ends with the
hash over exactly the full resource, `BytesRead` equal to its length, and
the accumulated output being what the hash saw. -/
theorem copyLoop_C1 (content : List Nat) :
    ∀ (n : Nat) (g : GState) (env : Env), Inv content g → EnvOK content env →
      (copyLoop n g env).2.1 = .success →
      (copyLoop n g env).2.2.1.hasher = some content ∧
      (copyLoop n g env).2.2.1.BytesRead = (content.length : Int) ∧
      g.hasher.map (fun h => h ++ (copyLoop n g env).1) = some content := by
  intro n
  induction n with
  | zero =>
    intro g env _ _ hs
    rw [copyLoop_zero] at hs
    exact absurd hs (by simp)
  | succ n ih =>
    intro g env hg henv hs
    have hR := Read_C1 content g env hg henv
    rcases hre : (Read g env).1.2 with _ | e
    · -- a retry-or-data step: the loop continues
      have hloop : copyLoop (n + 1) g env =
          ((Read g env).1.1 ++ (copyLoop n (Read g env).2.1 (Read g env).2.2).1,
           (copyLoop n (Read g env).2.1 (Read g env).2.2).2) := by
        rw [copyLoop]
        rw [hre]
      rw [hloop] at hs ⊢
      have hrec := ih (Read g env).2.1 (Read g env).2.2 hR.1 hR.2.1 hs
      refine ⟨hrec.1, hrec.2.1, ?_⟩
      have h2 := hrec.2.2
      rw [hR.2.2.1] at h2
      rw [← h2]
      cases hh : g.hasher with
      | none => rfl
      | some x => simp [List.append_assoc]
    · cases e with
      | eof =>
        have hloop : copyLoop (n + 1) g env =
            ((Read g env).1.1, .success, (Read g env).2.1, (Read g env).2.2) := by
          rw [copyLoop]
          rw [hre]
        rw [hloop]
        have heof := hR.2.2.2 hre
        refine ⟨heof.1, heof.2, ?_⟩
        have h2 := hR.2.2.1
        rw [h2] at heof
        exact heof.1
      | transport =>
        have hloop : copyLoop (n + 1) g env =
            ((Read g env).1.1, .failed .transport, (Read g env).2.1, (Read g env).2.2) := by
          rw [copyLoop]
          rw [hre]
        rw [hloop] at hs
        exact absurd hs (by simp)
      | emptyResponse =>
        have hloop : copyLoop (n + 1) g env =
            ((Read g env).1.1, .failed .emptyResponse, (Read g env).2.1,
             (Read g env).2.2) := by
          rw [copyLoop]
          rw [hre]
        rw [hloop] at hs
        exact absurd hs (by simp)
      | statusErr a b =>
        have hloop : copyLoop (n + 1) g env =
            ((Read g env).1.1, .failed (.statusErr a b), (Read g env).2.1,
             (Read g env).2.2) := by
          rw [copyLoop]
          rw [hre]
        rw [hloop] at hs
        exact absurd hs (by simp)

/-- **C1** (confirmed).  For every successful end-to-end download — `Do`
followed by an `io.Copy` read loop ending in `io.EOF` — over any
well-behaved environment (arbitrary transport errors, empty responses, 5xx
failures and body drops around a server that serves the fixed resource
`content` faithfully with range support), the concatenation of all bytes
delivered to the caller equals `content` exactly once, in order; at
completion `BytesRead` equals the resource's total length, and the
cumulative digest is the digest of `content`. -/
theorem C1_download_integrity (content : List Nat) (binit : List Duration)
    (env : Env) (fuel : Nat)
    (henv : EnvOK content env)
    (hsucc : (downloadRun binit env fuel).2.1 = .success) :
    (downloadRun binit env fuel).1 = content ∧
    (downloadRun binit env fuel).2.2.1.BytesRead = (content.length : Int) ∧
    Sha256 (downloadRun binit env fuel).2.2.1 = some (sha256hex content) := by
  have hg0 : Inv content (withDefaults (Getter binit)) := Inv_init content binit
  have hdo := Do_C1 content (withDefaults (Getter binit)) env hg0 henv
  have hrun : downloadRun binit env fuel =
      copyLoop fuel (Do (withDefaults (Getter binit)) env).2.1
        (Do (withDefaults (Getter binit)) env).2.2 := rfl
  rw [hrun] at hsucc ⊢
  have hcl := copyLoop_C1 content fuel _ _ hdo.1 hdo.2.1 hsucc
  refine ⟨?_, hcl.2.1, ?_⟩
  · have h2 := hcl.2.2
    rw [hdo.2.2] at h2
    have h3 : (withDefaults (Getter binit)).hasher = some [] := rfl
    rw [h3] at h2
    simpa using h2
  · rw [Sha256, hcl.1]
    rfl

/-- A well-behaved one-shot server for the two-byte resource `[97, 98]`:
a faithful full 200 response; range requests (never made in this run) fail
as transport errors, which are always well-behaved. -/
def envC1 : Env :=
  [fun rq =>
    match rq with
    | none => .resp
        { statusCode := 200
          header := [("Accept-Ranges", "bytes"), ("Content-Length", "2")]
          body := { steps := [{ bytes := [97, 98], err := none }], closed := false } }
    | some _ => .goErr]

set_option maxRecDepth 10000 in
/-- Witness for C1: downloading the two-byte resource `[97, 98]`. -/
theorem C1_download_integrity_witness :
    (downloadRun [0] envC1 3).2.1 = .success ∧
    (downloadRun [0] envC1 3).1 = [97, 98] ∧
    (downloadRun [0] envC1 3).2.2.1.BytesRead = (([97, 98] : List Nat).length : Int) ∧
    Sha256 (downloadRun [0] envC1 3).2.2.1 = some (sha256hex [97, 98]) := by
  have henv : EnvOK [97, 98] envC1 := by
    intro f hf
    rcases List.mem_cons.mp hf with rfl | hf2
    · refine ⟨Or.inr ⟨by decide, by decide, by decide, by decide, by decide⟩, ?_⟩
      intro se
      exact trivial
    · exact absurd hf2 (List.not_mem_nil f)
  have hsucc : (downloadRun [0] envC1 3).2.1 = .success := by decide
  have h := C1_download_integrity [97, 98] [0] envC1 3 henv hsucc
  exact ⟨hsucc, h.1, h.2.1, h.2.2⟩

end Httpretry
